import Mathlib

/-!
# cclauncher: the launch orchestrator of `src/java.cpp`

A shallow embedding of the `launcher` class (constructor, `downloadfiles`,
`extractnatives`, `getclasspath`, `buildlaunchcommand`, `setuplauncher`,
`launchprocess`) together with the results proved about it.

Conventions of the embedding.

* `std::string` is `String`; one `Char` stands for one C++ `char`.
* A C++ function that may throw returns `Except String α × World`: the
  `Except` part is the normal result or the `what()` of the exception, the
  `World` part is the state left behind (side effects made before a throw
  persist).
* Everything the program observes from outside itself (the operating system,
  the network, libzip, the JSON parser, Win32) is a field of `Env`.
* `logconsole` is never empty after the constructor has run, so every
  `if (logconsole) logconsole(msg)` is an unconditional append to `World.log`.
-/

set_option autoImplicit false
set_option linter.dupNamespace false

namespace CCLauncher

/-- File contents and network payloads: a sequence of byte values. -/
abbrev Bytes := List Nat

/-! ## Path strings: `std::filesystem::path` with the Windows conventions -/

/-- Directory separators of a Windows path: both slashes. -/
def isSlash (c : Char) : Bool := c == '/' || c == '\\'

/-- Length of the root name of a path: a drive (`X:`), a device prefix
(`\\?\`, `\\.\`, `\??\`) or a server name (`\\server`); `0` when there is none. -/
def rootNameLen (s : List Char) : Nat :=
  match s with
  | c0 :: c1 :: rest =>
    if c0.isAlpha && c1 == ':' then 2
    else if !isSlash c0 then 0
    else
      match rest with
      | c2 :: c3 :: rest4 =>
        if isSlash c3 && (match rest4 with | [] => true | c4 :: _ => !isSlash c4)
            && ((isSlash c1 && (c2 == '?' || c2 == '.')) || (c1 == '?' && c2 == '?')) then 3
        else if isSlash c1 && !isSlash c2 then
          3 + ((rest.drop 1).takeWhile fun c => !isSlash c).length
        else 0
      | [c2] => if isSlash c1 && !isSlash c2 then 3 else 0
      | [] => 0
  | _ => 0

/-- Index at which the relative path starts: after the root name and the
root directory (the separators that follow the root name). -/
def relStart (s : List Char) : Nat :=
  rootNameLen s + ((s.drop (rootNameLen s)).takeWhile isSlash).length

/-- Characters of `path::filename()`: what follows the last separator of the relative path. -/
def filenameL (s : List Char) : List Char :=
  ((s.drop (relStart s)).reverse.takeWhile fun c => !isSlash c).reverse

/-- Characters of `path::parent_path()`: the path without its filename and
without the separators in front of it; the root is kept. -/
def parentL (s : List Char) : List Char :=
  s.take (relStart s) ++
    (((s.drop (relStart s)).reverse.dropWhile fun c => !isSlash c).dropWhile isSlash).reverse

/-- Extension inside a filename: from its last dot on, unless that dot is the
first character or the filename is `..`. -/
def findExt (f : List Char) : List Char :=
  match f.reverse.dropWhile fun c => c != '.' with
  | [] => []
  | [_] => []
  | _ :: _ :: _ =>
    if f = ['.', '.'] then [] else '.' :: (f.reverse.takeWhile fun c => c != '.').reverse

/-- Characters of `path::extension()`; an alternate data stream suffix (`:stream`) is not part of it. -/
def extensionL (s : List Char) : List Char :=
  findExt ((filenameL s).takeWhile fun c => c != ':')

/-- Whether the path is absolute: `X:\...`, or any other non-empty root name. -/
def isAbsoluteL (s : List Char) : Bool :=
  match s with
  | c0 :: c1 :: rest =>
    if c0.isAlpha && c1 == ':' then
      (match rest with | c2 :: _ => isSlash c2 | [] => false)
    else rootNameLen s != 0
  | _ => false

/-- Characters of `a / b` (`path::operator/`). -/
def appendL (a b : List Char) : List Char :=
  if isAbsoluteL b then b
  else if rootNameLen b != 0 && a.take (rootNameLen a) != b.take (rootNameLen b) then b
  else
    let base : List Char :=
      if (match b.drop (rootNameLen b) with | c :: _ => isSlash c | [] => false) then
        a.take (rootNameLen a)
      else if rootNameLen a == a.length then
        (if 3 ≤ rootNameLen a then a ++ ['\\'] else a)
      else
        (match a.getLast? with
         | some c => if isSlash c then a else a ++ ['\\']
         | none => a)
    base ++ b.drop (rootNameLen b)

/-- Path concatenation `fs::path(a) / fs::path(b)`, as a string. -/
def pathAppend (a b : String) : String := ⟨appendL a.data b.data⟩

/-- Result of `path::make_preferred()`: every `/` becomes `\`. -/
def make_preferred (p : String) : String :=
  ⟨p.data.map fun c => if c == '/' then '\\' else c⟩

/-- Result of `path::filename()`, as a string. -/
def filename (p : String) : String := ⟨filenameL p.data⟩

/-- Result of `path::extension()`, as a string. -/
def extension (p : String) : String := ⟨extensionL p.data⟩

/-- Result of `path::parent_path()`, as a string. -/
def parent_path (p : String) : String := ⟨parentL p.data⟩

/-! ## JSON values (`nlohmann::json`) -/

/-- A parsed JSON document. Numbers are kept as integers; no operation of the
launcher reads a number. -/
inductive Json where
  | null
  | bool (b : Bool)
  | num (n : Int)
  | str (s : String)
  | arr (items : List Json)
  | obj (members : List (String × Json))

namespace Json

/-- First member of an object with the given key. -/
def lookup : List (String × Json) → String → Option Json
  | [], _ => none
  | (k, v) :: rest, key => if k = key then some v else lookup rest key

/-- JSON `contains(key)`: true only for an object that has the key. -/
def contains (j : Json) (key : String) : Bool :=
  match j with
  | obj ms => (lookup ms key).isSome
  | _ => false

/-- JSON `operator[](key)`. The launcher only applies it after `contains`;
on anything else the library raises. -/
def get (j : Json) (key : String) : Except String Json :=
  match j with
  | obj ms =>
    match lookup ms key with
    | some v => .ok v
    | none => .error "[json.exception.out_of_range.403] key not found"
  | _ => .error "[json.exception.type_error.305] cannot use operator[] with a string argument"

/-- Conversion `get<std::string>()`: raises unless the value is a string. -/
def getString (j : Json) : Except String String :=
  match j with
  | str s => .ok s
  | _ => .error "[json.exception.type_error.302] type must be string"

/-- Lookup `value(key, default)` with a string default: the member converted to a
string, the default when the key is absent; raises on a non-object and on
a member that is not a string. -/
def value (j : Json) (key dflt : String) : Except String String :=
  match j with
  | obj ms =>
    match lookup ms key with
    | some v => getString v
    | none => .ok dflt
  | _ => .error "[json.exception.type_error.306] cannot use value()"

/-- JSON `is_array()`. -/
def isArray (j : Json) : Bool :=
  match j with
  | arr _ => true
  | _ => false

/-- Elements visited by a range-for over a JSON array. -/
def items (j : Json) : List Json :=
  match j with
  | arr xs => xs
  | _ => []

end Json

/-! ## The world the launcher runs in -/

/-- What a location of the file system holds. -/
inductive Node where
  | file (content : Bytes)
  | dir
  deriving DecidableEq

/-- A child process created by `CreateProcessA`. -/
structure Child where
  commandline : String
  alive : Bool
  deriving DecidableEq

/-- Record of one completed call of `downloadfiles` (kept for the proofs only). -/
structure DlCall where
  url : String
  outputpath : String
  raised : Bool
  deriving DecidableEq

/-- The file system: locations (resolved component lists) with what they hold,
in the order the file system enumerates them. -/
abbrev FS := List (List String × Node)

/-- Mutable state: the file system, the lines given to `logconsole`, the
calls of `downloadfiles`, the urls `curl_easy_perform` ran on, the global
`minecraftrunning`, and the child processes created so far. -/
structure World where
  fs : FS
  log : List String
  calls : List DlCall
  transfers : List String
  minecraftrunning : Bool
  children : List Child
  deriving DecidableEq

/-- One entry of an opened archive: `name` is `none` when `zip_get_name`
returns `NULL`; `reads` is `none` when `zip_fopen_index` fails, otherwise the
results of the successive `zip_fread` calls. -/
structure ZipEntry where
  name : Option String
  reads : Option (List Bytes)

/-- Outcome of `curl_easy_perform`: the error text when the result is not
`CURLE_OK`, and the bytes that reached the write callback. -/
structure CurlResult where
  error : Option String
  body : Bytes

/-- Everything outside the program.
* `resolve`: the location a path string designates (working directory applied);
* `absolute`: `fs::absolute(p).string()`;
* `mkdirError`: the error with which `fs::create_directories(p)` is refused;
* `writeDenied`, `readDenied`: the file cannot be opened for writing, reading;
* `curlInitFails`, `curlPerform`: libcurl, per url;
* `zipOpen`: libzip on the bytes of an archive (`none`: cannot be opened);
* `jsonParse`: the JSON parser (an error is the `parse_error` it throws);
* `stdoutPipe`, `stderrPipe`: success of the two checked `CreatePipe` calls;
* `createProcess`: success of `CreateProcessA` on a command line. -/
structure Env where
  resolve : String → List String
  absolute : String → String
  mkdirError : String → Option String
  writeDenied : String → Bool
  readDenied : String → Bool
  curlInitFails : String → Bool
  curlPerform : String → CurlResult
  zipOpen : Bytes → Option (List ZipEntry)
  jsonParse : Bytes → Except String Json
  stdoutPipe : Bool
  stderrPipe : Bool
  createProcess : String → Bool

/-- What the file system holds at a location. -/
def fsLookup : FS → List String → Option Node
  | [], _ => none
  | (k, n) :: rest, key => if k = key then some n else fsLookup rest key

/-- Store a node at a location: in place when the location exists, as the
newest entry otherwise. -/
def fsPut : FS → List String → Node → FS
  | [], key, n => [(key, n)]
  | (k, m) :: rest, key, n =>
    if k = key then (k, n) :: rest else (k, m) :: fsPut rest key n

/-- Non-empty prefixes of a location, shortest first: its ancestors, then itself. -/
def prefixes : List String → List (List String)
  | [] => []
  | c :: cs => [c] :: (prefixes cs).map fun k => c :: k

/-- Create the given directories in order; stops (`false`) at a location
that holds a regular file. -/
def mkdirs : List (List String) → FS → Bool × FS
  | [], fs => (true, fs)
  | k :: ks, fs =>
    match fsLookup fs k with
    | some (Node.file _) => (false, fs)
    | some Node.dir => mkdirs ks fs
    | none => mkdirs ks (fs ++ [(k, Node.dir)])

/-- Append a line to the log: `logconsole(msg)`. -/
def logconsole (msg : String) (w : World) : World :=
  { w with log := w.log ++ [msg] }

/-- Library call `fs::create_directories(p)`: raises when refused or when a regular file is in the way. -/
def create_directories (env : Env) (p : String) (w : World) : Except String Unit × World :=
  match env.mkdirError p with
  | some msg => (.error msg, w)
  | none =>
    match mkdirs (prefixes (env.resolve p)) w.fs with
    | (true, fs) => (.ok (), { w with fs := fs })
    | (false, fs) => (.error ("create_directories: " ++ p), { w with fs := fs })

/-- Library call `fs::exists(p)`. -/
def fsExists (env : Env) (w : World) (p : String) : Bool :=
  (fsLookup w.fs (env.resolve p)).isSome

/-- Content of the regular file at `p` when it can be opened for reading. -/
def readFile (env : Env) (w : World) (p : String) : Option Bytes :=
  if env.readDenied p then none
  else
    match fsLookup w.fs (env.resolve p) with
    | some (Node.file b) => some b
    | _ => none

/-- Open via `std::ofstream(p, std::ios::binary)`: creates or truncates the file; `none` when
the stream is not open afterwards. -/
def openWrite (env : Env) (p : String) (w : World) : Option World :=
  if env.writeDenied p then none
  else
    match fsLookup w.fs (env.resolve p) with
    | some Node.dir => none
    | _ => some { w with fs := fsPut w.fs (env.resolve p) (Node.file []) }

/-- Stream write `stream.write(bytes)` on the open output file `p`. -/
def writeBytes (env : Env) (p : String) (bytes : Bytes) (w : World) : World :=
  match fsLookup w.fs (env.resolve p) with
  | some (Node.file old) => { w with fs := fsPut w.fs (env.resolve p) (Node.file (old ++ bytes)) }
  | _ => w

/-! ## The `launcher` class -/

/-- Data members of `launcher` (the logger is `logconsole`). -/
structure launcher where
  versionid : String
  jsonpath : String
  nativespath : String
  libspath : String
  deriving DecidableEq

/-- Constructor `launcher::launcher(versionid, logger)`. -/
def launcher.launcher (versionid : String) : launcher :=
  { versionid := versionid
    jsonpath := make_preferred
      (pathAppend (pathAppend (pathAppend ".minecraft" "versions") versionid) (versionid ++ ".json"))
    libspath := make_preferred
      (pathAppend (pathAppend (pathAppend ".minecraft" "versions") versionid) "libraries")
    nativespath := make_preferred (pathAppend (pathAppend ".minecraft" "natives") versionid) }

/-- Body of `launcher::downloadfiles(url, outputpath)`. -/
def downloadfilesBody (env : Env) (url outputpath : String) (w : World) :
    Except String Unit × World :=
  match create_directories env (parent_path outputpath) w with
  | (.error e, w1) => (.error e, w1)
  | (.ok _, w1) =>
    if fsExists env w1 outputpath then
      (.ok (), logconsole ("[Skip] " ++ outputpath) w1)
    else
      let w2 := logconsole ("[Download] " ++ url) w1
      match openWrite env outputpath w2 with
      | none => (.error ("Failed to open output file: " ++ outputpath), w2)
      | some w3 =>
        if env.curlInitFails url then (.error "Failed to initialize curl.", w3)
        else
          let w4 := writeBytes env outputpath (env.curlPerform url).body
            { w3 with transfers := w3.transfers ++ [url] }
          match (env.curlPerform url).error with
          | some msg => (.error ("CURL download failed: " ++ msg), w4)
          | none => (.ok (), w4)

/-- Method `launcher::downloadfiles(url, outputpath)`; the completed call is
recorded in `World.calls`. -/
def downloadfiles (env : Env) (url outputpath : String) (w : World) :
    Except String Unit × World :=
  match downloadfilesBody env url outputpath w with
  | (.error e, w1) => (.error e, { w1 with calls := w1.calls ++ [⟨url, outputpath, true⟩] })
  | (.ok u, w1) => (.ok u, { w1 with calls := w1.calls ++ [⟨url, outputpath, false⟩] })

/-! ### `extractnatives` -/

/-- Condition of the extraction loop,
`entryname.size() > 4 && entryname.substr(entryname.size() - 4) == ".dll"`. -/
def dllentry (entryname : String) : Bool :=
  decide (4 < entryname.length) &&
    decide (entryname.data.drop (entryname.length - 4) = ".dll".data)

/-- Copy loop `while ((bytesread = zip_fread(...)) > 0) out.write(buffer, bytesread)`. -/
def copyloop (env : Env) (outpath : String) : List Bytes → World → World
  | [], w => w
  | c :: cs, w => if 0 < c.length then copyloop env outpath cs (writeBytes env outpath c w) else w

/-- One iteration of the loop over the archive entries, for entry `i`. -/
def extractentry (env : Env) (nativespath : String) (i : Nat) (e : ZipEntry) (w : World) : World :=
  match e.name with
  | none => logconsole ("[Warn] Invalid ZIP entry at index: " ++ toString i) w
  | some entryname =>
    if dllentry entryname then
      let outpath := pathAppend nativespath (filename entryname)
      match e.reads with
      | none => logconsole ("[Error] Failed to open ZIP entry: " ++ entryname) w
      | some chunks =>
        match openWrite env outpath w with
        | none => logconsole ("[Error] Failed to create output DLL: " ++ outpath) w
        | some w1 => copyloop env outpath chunks w1
    else w

/-- Loop `for (i = 0; i < numentries; ++i)` over the entries from index `i` on. -/
def extractentries (env : Env) (nativespath : String) : Nat → List ZipEntry → World → World
  | _, [], w => w
  | i, e :: es, w => extractentries env nativespath (i + 1) es (extractentry env nativespath i e w)

/-- Library call `zip_open(jarpath)`: the entries of the archive stored at `jarpath`. -/
def zip_open (env : Env) (w : World) (jarpath : String) : Option (List ZipEntry) :=
  match readFile env w jarpath with
  | some bytes => env.zipOpen bytes
  | none => none

/-- Method `launcher::extractnatives(jarpath)`. -/
def extractnatives (env : Env) (L : launcher) (jarpath : String) (w : World) :
    Except String Unit × World :=
  match create_directories env L.nativespath w with
  | (.error e, w1) => (.error e, w1)
  | (.ok _, w1) =>
    match zip_open env w1 jarpath with
    | none => (.error ("Failed to open jar: " ++ jarpath), w1)
    | some entries =>
      (.ok (), logconsole ("[Extract] " ++ filename jarpath)
        (extractentries env L.nativespath 0 entries w1))

/-! ### `getclasspath` -/

/-- An element of a directory iteration: `entry.path().string()` and
`entry.is_regular_file()`. -/
structure DirEntry where
  path : String
  regular : Bool
  deriving DecidableEq

/-- Whether a node is a regular file. -/
def Node.isFile : Node → Bool
  | Node.file _ => true
  | Node.dir => false

/-- Iteration `fs::recursive_directory_iterator(dir)`: everything strictly below `dir`, in
file-system order, each path being `dir` extended by the names below it;
`none` (the constructor throws) when `dir` is not a directory. -/
def listing (env : Env) (w : World) (dir : String) : Option (List DirEntry) :=
  match fsLookup w.fs (env.resolve dir) with
  | some Node.dir =>
    some (w.fs.filterMap fun kn =>
      if (env.resolve dir).isPrefixOf kn.1 && decide ((env.resolve dir).length < kn.1.length) then
        some ⟨(kn.1.drop (env.resolve dir).length).foldl pathAppend dir, kn.2.isFile⟩
      else none)
  | _ => none

/-- The loop that builds the classpath string: the entries separated by `;`. -/
def joinjars : List String → String
  | [] => ""
  | [j] => j
  | j :: j2 :: rest => j ++ ";" ++ joinjars (j2 :: rest)

/-- The `.jar` files collected from the directory iteration. -/
def libraryjars (entries : List DirEntry) : List String :=
  (entries.filter fun e => e.regular && decide (extension e.path = ".jar")).map fun e => e.path

/-- Path of the main game archive, `mainjar.string()` in `getclasspath`. -/
def mainjarpath (env : Env) (L : launcher) : String :=
  make_preferred (env.absolute
    (pathAppend (pathAppend (pathAppend ".minecraft" "versions") L.versionid) (L.versionid ++ ".jar")))

/-- Method `launcher::getclasspath()`. -/
def getclasspath (env : Env) (L : launcher) (w : World) : Except String String × World :=
  match listing env w L.libspath with
  | none => (.error ("recursive_directory_iterator: " ++ L.libspath), w)
  | some entries =>
    if fsExists env w (mainjarpath env L) then
      (.ok (joinjars (libraryjars entries ++ [mainjarpath env L])), w)
    else
      let w1 := logconsole ("[Error] Missing version JAR: " ++ mainjarpath env L) w
      (.ok (joinjars (libraryjars entries)),
        if (libraryjars entries).isEmpty then
          logconsole ("[Error] No JARs found in libraries directory: " ++ L.libspath) w1
        else w1)

/-! ### `buildlaunchcommand` -/

/-- The string assembled at the end of `buildlaunchcommand`. -/
def commandstring (L : launcher) (username mainclass assetindex classpath nativesdir
    versiongamedir versionassetsdir : String) : String :=
  "-Xmx2G -Xms1G " ++
  ("-Djava.library.path=\"" ++ nativesdir ++ "\" ") ++
  ("-cp \"" ++ classpath ++ "\" ") ++
  (mainclass ++ " ") ++
  ("--username " ++ username ++ " ") ++
  ("--version " ++ L.versionid ++ " ") ++
  ("--gameDir \"" ++ versiongamedir ++ "\" ") ++
  ("--assetsDir \"" ++ versionassetsdir ++ "\" ") ++
  ("--assetIndex " ++ assetindex ++ " ") ++
  "--uuid 00000000-0000-0000-0000-000000000000 " ++
  "--accessToken 0 " ++
  "--userType mojang"

/-- Expression `versiondata.contains(key) ? versiondata[key].get<std::string>() : dflt`. -/
def stringfield (j : Json) (key dflt : String) : Except String String :=
  if j.contains key then
    match j.get key with
    | .ok v => v.getString
    | .error e => .error e
  else .ok dflt

/-- Method `launcher::buildlaunchcommand(username)`. -/
def buildlaunchcommand (env : Env) (L : launcher) (username : String) (w : World) :
    Except String String × World :=
  match readFile env w L.jsonpath with
  | none => (.ok "", logconsole ("[Error] Failed to read version JSON: " ++ L.jsonpath) w)
  | some bytes =>
    match env.jsonParse bytes with
    | .error e => (.error e, w)
    | .ok versiondata =>
      match stringfield versiondata "mainClass" "" with
      | .error e => (.error e, w)
      | .ok mainclass =>
        if mainclass = "" then
          (.ok "", logconsole "[Error] mainClass missing in version JSON." w)
        else
          match stringfield versiondata "assets" L.versionid with
          | .error e => (.error e, w)
          | .ok assetindex =>
            match getclasspath env L w with
            | (.error e, w1) => (.error e, w1)
            | (.ok classpath, w1) =>
              let nativesdir := env.absolute L.nativespath
              let versiongamedir := env.absolute (pathAppend ".minecraft/versions" L.versionid)
              let versionassetsdir := pathAppend versiongamedir "assets"
              match create_directories env versiongamedir w1 with
              | (.error e, w2) => (.error e, w2)
              | (.ok _, w2) =>
                match create_directories env versionassetsdir w2 with
                | (.error e, w3) => (.error e, w3)
                | (.ok _, w3) =>
                  (.ok (commandstring L username mainclass assetindex classpath nativesdir
                    versiongamedir versionassetsdir), w3)

/-! ### `setuplauncher` -/

/-- Test `s.find(pat) != std::string::npos` on character lists. -/
def hasSubstr (pat : List Char) : List Char → Bool
  | [] => pat.isEmpty
  | c :: cs => pat.isPrefixOf (c :: cs) || hasSubstr pat cs

/-- Run a loop body over the elements in order, as a range-for does; an
exception leaves the loop. -/
def forEach (body : Json → World → Except String Unit × World) :
    List Json → World → Except String Unit × World
  | [], w => (.ok (), w)
  | lib :: rest, w =>
    match body lib w with
    | (.error e, w1) => (.error e, w1)
    | (.ok _, w1) => forEach body rest w1

/-- Body of the first loop of `setuplauncher` ("Download normal libraries"). -/
def downloadstep (env : Env) (L : launcher) (lib : Json) (w : World) :
    Except String Unit × World :=
  if !lib.contains "downloads" then (.ok (), w)
  else
    match lib.get "downloads" with
    | .error e => (.error e, w)
    | .ok downloads =>
      if !downloads.contains "artifact" then (.ok (), w)
      else
        match downloads.get "artifact" with
        | .error e => (.error e, w)
        | .ok artifact =>
          match artifact.value "url" "" with
          | .error e => (.error e, w)
          | .ok url =>
            match artifact.value "path" "" with
            | .error e => (.error e, w)
            | .ok apath =>
              if url = "" ∨ apath = "" then
                (.ok (), logconsole "[Warn] Skip library (missing URL or path)." w)
              else
                match downloadfiles env url (pathAppend L.libspath (make_preferred apath)) w with
                | (.error e, w1) => (.ok (), logconsole ("[Error] Downloading failed: " ++ e) w1)
                | (.ok _, w1) => (.ok (), w1)

/-- Body of the second loop of `setuplauncher` ("Extract native JARs"). -/
def extractstep (env : Env) (L : launcher) (lib : Json) (w : World) :
    Except String Unit × World :=
  if !lib.contains "name" then (.ok (), w)
  else
    match lib.get "name" with
    | .error e => (.error e, w)
    | .ok namevalue =>
      match namevalue.getString with
      | .error e => (.error e, w)
      | .ok name =>
        if hasSubstr "natives-windows".data name.data then
          if !lib.contains "downloads" then (.ok (), w)
          else
            match lib.get "downloads" with
            | .error e => (.error e, w)
            | .ok downloads =>
              if !downloads.contains "artifact" then (.ok (), w)
              else
                match downloads.get "artifact" with
                | .error e => (.error e, w)
                | .ok artifact =>
                  match artifact.value "path" "" with
                  | .error e => (.error e, w)
                  | .ok apath =>
                    if apath = "" then (.ok (), w)
                    else if fsExists env w
                        (make_preferred (env.absolute (pathAppend L.libspath apath))) then
                      extractnatives env L
                        (make_preferred (env.absolute (pathAppend L.libspath apath))) w
                    else (.ok (), w)
        else (.ok (), w)

/-- The two loops of `setuplauncher` over the elements of `j["libraries"]`. -/
def setuplibraries (env : Env) (L : launcher) (libs : List Json) (w : World) :
    Except String Unit × World :=
  match forEach (downloadstep env L) libs w with
  | (.error e, w1) => (.error e, w1)
  | (.ok _, w1) => forEach (extractstep env L) libs w1

/-- Method `launcher::setuplauncher()`. -/
def setuplauncher (env : Env) (L : launcher) (w : World) : Except String Unit × World :=
  match readFile env w L.jsonpath with
  | none => (.ok (), logconsole ("[Error] Failed to open JSON: " ++ L.jsonpath) w)
  | some bytes =>
    match env.jsonParse bytes with
    | .error e => (.error e, w)
    | .ok j =>
      if !j.contains "libraries" then
        (.ok (), logconsole "[Error] Version JSON missing 'libraries' array." w)
      else
        match j.get "libraries" with
        | .error e => (.error e, w)
        | .ok libraries =>
          if !libraries.isArray then
            (.ok (), logconsole "[Error] Version JSON missing 'libraries' array." w)
          else setuplibraries env L libraries.items w

/-! ### `launchprocess` -/

/-- The fixed location of the Java executable. -/
def javapath : String := ".minecraft\\java\\bin\\java.exe"

/-- Method `launcher::launchprocess(username)`, up to the point where the two
detached threads have been started. A created process is recorded as an alive
`Child`; its exit-waiter thread is the `Event.exit` step below. -/
def launchprocess (env : Env) (L : launcher) (username : String) (w : World) :
    Except String Unit × World :=
  match setuplauncher env L w with
  | (.error e, w1) => (.error e, w1)
  | (.ok _, w1) =>
    match buildlaunchcommand env L username w1 with
    | (.error e, w2) => (.error e, w2)
    | (.ok args, w2) =>
      if args = "" then (.ok (), logconsole "[Error] No launch arguments generated." w2)
      else if !fsExists env w2 javapath then
        (.ok (), logconsole ("[Error] Java not found: " ++ javapath) w2)
      else
        let w3 := logconsole "[Launch] Starting Java process..." w2
        if !env.stdoutPipe then (.ok (), logconsole "[Error] Failed to create stdout pipe." w3)
        else if !env.stderrPipe then
          (.ok (), logconsole "[Error] Failed to create stderr pipe." w3)
        else if !env.createProcess ("\"" ++ javapath ++ "\" " ++ args) then
          (.ok (), logconsole "[Error] Failed to start java process." w3)
        else
          (.ok (), logconsole "[Launch] Minecraft launch request sent..."
            { w3 with children := w3.children ++ [⟨"\"" ++ javapath ++ "\" " ++ args, true⟩] })

/-! ## The running program: launch requests and the background threads -/

/-- What can happen in the running launcher UI. -/
inductive Event where
  -- the launch button: a fresh `launcher(versionid)` runs `launchprocess(username)`
  | launch (env : Env) (versionid username : String)
  -- the stdout reader thread of child `i` forwards a chunk to the log
  | output (i : Nat) (chunk : String)
  -- child `i` terminates and its exit-waiter thread runs
  | exit (i : Nat)

/-- Mark child `i` as terminated. -/
def terminate : Nat → List Child → List Child
  | _, [] => []
  | 0, c :: cs => { c with alive := false } :: cs
  | i + 1, c :: cs => c :: terminate i cs

/-- Whether child `i` exists and is alive. -/
def aliveAt (cs : List Child) (i : Nat) : Bool :=
  match cs.get? i with
  | some c => c.alive
  | none => false

/-- Effect of an event; `none` when the event cannot happen in this state or
when an exception leaves `launchprocess` (the thread has no handler: the
program ends). -/
def step (ev : Event) (w : World) : Option World :=
  match ev with
  | Event.launch env versionid username =>
    match launchprocess env (launcher.launcher versionid) username w with
    | (.ok _, w1) => some w1
    | (.error _, _) => none
  | Event.output i chunk => if aliveAt w.children i then some (logconsole chunk w) else none
  | Event.exit i =>
    if aliveAt w.children i then
      some (logconsole "[Launch] Minecraft closed."
        { w with minecraftrunning := false, children := terminate i w.children })
    else none

/-- State at program start: `minecraftrunning = false`, nothing logged, no
child; the file system is whatever is on disk. -/
def initial (fs : FS) : World :=
  { fs := fs, log := [], calls := [], transfers := [], minecraftrunning := false, children := [] }

/-- Run a sequence of events from a state. -/
def run : List Event → World → Option World
  | [], w => some w
  | ev :: evs, w =>
    match step ev w with
    | some w1 => run evs w1
    | none => none

/-! ## A concrete installation, used to run the definitions -/

/-- Components of a path string, separators and empty components dropped. -/
def splitPath : List Char → List Char → List String
  | [], cur => if cur.isEmpty then [] else [⟨cur.reverse⟩]
  | c :: cs, cur =>
    if isSlash c then
      (if cur.isEmpty then splitPath cs [] else ⟨cur.reverse⟩ :: splitPath cs [])
    else splitPath cs (c :: cur)

/-- Dependency records of the demo installation: one library and one native archive. -/
def demoLibraries : List Json :=
  [Json.obj
     [("name", Json.str "com.mojang:brigadier:1.2.9"),
      ("downloads", Json.obj [("artifact", Json.obj
         [("url", Json.str "https://libraries.minecraft.net/brigadier.jar"),
          ("path", Json.str "com/mojang/brigadier.jar")])])],
   Json.obj
     [("name", Json.str "org.lwjgl:lwjgl:3.3.3:natives-windows"),
      ("downloads", Json.obj [("artifact", Json.obj
         [("url", Json.str "https://libraries.minecraft.net/lwjgl-natives.jar"),
          ("path", Json.str "org/lwjgl/lwjgl-natives.jar")])])]]

/-- Manifest of the demo installation: a main class, one library and one
native archive. -/
def demoManifest : Json :=
  Json.obj
    [("mainClass", Json.str "net.minecraft.client.main.Main"),
     ("libraries", Json.arr demoLibraries)]

/-- Entries of the archive of the demo installation. -/
def demoArchive : List ZipEntry :=
  [⟨some "lib/win64/foo.dll", some [[77, 90]]⟩, ⟨some "META-INF/MANIFEST.MF", some [[1]]⟩]

/-- Environment of the demo installation: working directory `C:\cc`, nothing
is refused, every transfer delivers the bytes `[80, 75]`, which libzip opens
as an archive with the entries `lib/win64/foo.dll` and `META-INF/MANIFEST.MF`,
and the bytes `[123]` parse to `demoManifest`. -/
def demoEnv : Env :=
  { resolve := fun p =>
      if isAbsoluteL p.data then splitPath p.data [] else "C:" :: "cc" :: splitPath p.data []
    absolute := fun p => if isAbsoluteL p.data then p else "C:\\cc\\" ++ p
    mkdirError := fun _ => none
    writeDenied := fun _ => false
    readDenied := fun _ => false
    curlInitFails := fun _ => false
    curlPerform := fun _ => ⟨none, [80, 75]⟩
    zipOpen := fun b => if b = [80, 75] then some demoArchive else none
    jsonParse := fun b => if b = [123] then .ok demoManifest else .error "parse_error"
    stdoutPipe := true
    stderrPipe := true
    createProcess := fun _ => true }

/-- Disk of the demo installation: the manifest, the main archive and the
Java executable. -/
def demoDisk : FS :=
  [(["C:", "cc", ".minecraft", "versions", "1.21", "1.21.json"], Node.file [123]),
   (["C:", "cc", ".minecraft", "versions", "1.21", "1.21.jar"], Node.file [80, 75]),
   (["C:", "cc", ".minecraft", "java", "bin", "java.exe"], Node.file [77, 90])]

/-! ## Definitions used in the statements: observations of the state, the wording of
the specification, and further concrete installations -/

/-- The process part of the state (children and the global flag) is the same. -/
def sameProcs (w w1 : World) : Prop :=
  w1.children = w.children ∧ w1.minecraftrunning = w.minecraftrunning

/-- The demo environment with a manifest that has no `mainClass`. -/
def noMainEnv : Env :=
  { demoEnv with jsonParse := fun _ => .ok (Json.obj [("libraries", Json.arr [])]) }

/-- The selection rule in the words of the specification: the entry name ends with
the native-library suffix `.dll`. -/
def endsWithDll (name : String) : Prop := ".dll".data <:+ name.data

/-- Locations present in the file system, in enumeration order. -/
def keys (fs : FS) : List (List String) := fs.map Prod.fst

/-- Location `k` lies strictly below the directory location `d`. -/
def below (d k : List String) : Bool := d.isPrefixOf k && decide (d.length < k.length)

/-- Regular files strictly below a directory, in enumeration order. -/
def filesBelow (w : World) (d : List String) : List (List String) :=
  (w.fs.filter fun kn => kn.2.isFile && below d kn.1).map Prod.fst

/-- What kind of node a location holds: `some true` a regular file, `some false`
a directory, `none` nothing. -/
def kindAt (fs : FS) (k : List String) : Option Bool := (fsLookup fs k).map Node.isFile

/-- Whether the extraction loop selects an entry. -/
def selected (e : ZipEntry) : Bool :=
  match e.name with
  | some n => dllentry n
  | none => false

/-- Output location of every selected entry, `nativespath / filename`, in archive order. -/
def outputs (env : Env) (np : String) (entries : List ZipEntry) : List (List String) :=
  entries.filterMap fun e =>
    match e.name with
    | some n => if dllentry n then some (env.resolve (pathAppend np (filename n))) else none
    | none => none

/-- The demo environment with an archive that holds two libraries of the same
base name in different directories. -/
def twoDllEnv : Env :=
  { demoEnv with
    zipOpen := fun _ => some [⟨some "a/x.dll", some [[1]]⟩, ⟨some "b/x.dll", some [[2]]⟩] }

/-- Split a character list at every occurrence of a delimiter. -/
def splitAt (d : Char) : List Char → List (List Char)
  | [] => [[]]
  | c :: cs =>
    if c = d then [] :: splitAt d cs
    else
      match splitAt d cs with
      | [] => [[c]]
      | p :: ps => (c :: p) :: ps

/-- The demo disk with a libraries directory that holds `a.jar` and `b.jar`. -/
def libsDisk : FS :=
  demoDisk ++
  [(["C:", "cc", ".minecraft", "versions", "1.21", "libraries"], Node.dir),
   (["C:", "cc", ".minecraft", "versions", "1.21", "libraries", "a.jar"], Node.file [80, 75]),
   (["C:", "cc", ".minecraft", "versions", "1.21", "libraries", "b.jar"], Node.file [80, 75])]

/-- A disk with the manifest and one library, but without the main archive. -/
def noMainJarDisk : FS :=
  [(["C:", "cc", ".minecraft", "versions", "1.21", "1.21.json"], Node.file [123]),
   (["C:", "cc", ".minecraft", "versions", "1.21", "libraries"], Node.dir),
   (["C:", "cc", ".minecraft", "versions", "1.21", "libraries", "a.jar"], Node.file [80, 75])]

/-- The value of `lib["downloads"]["artifact"]` when both keys are present. -/
def artifactOf (lib : Json) : Option Json :=
  if lib.contains "downloads" then
    match lib.get "downloads" with
    | .ok downloads =>
      if downloads.contains "artifact" then
        match downloads.get "artifact" with
        | .ok artifact => some artifact
        | .error _ => none
      else none
    | .error _ => none
  else none

/-- The record is typed as the manifest format says: an artifact, when there
is one, has string values for `url` and `path` (each may be absent). -/
def artifactTyped (lib : Json) : Prop :=
  ∀ a, artifactOf lib = some a →
    (∃ u, a.value "url" "" = .ok u) ∧ (∃ p, a.value "path" "" = .ok p)

/-- The call of `downloadfiles` a record asks for: its url and the target path
below the libraries directory, when the record has an artifact with a
non-empty url and path. -/
def dltarget (L : launcher) (lib : Json) : Option (String × String) :=
  match artifactOf lib with
  | some a =>
    match a.value "url" "", a.value "path" "" with
    | .ok u, .ok p =>
      if u = "" ∨ p = "" then none else some (u, pathAppend L.libspath (make_preferred p))
    | _, _ => none
  | none => none

/-- Log lines of the form "[Error] Downloading failed: ...". -/
def isDownloadError (line : String) : Bool :=
  "[Error] Downloading failed: ".data.isPrefixOf line.data

/-- What one or several loop iterations added to the state: the calls of
`downloadfiles` made (their urls and target paths are `targets`, in order)
and the log lines written, among which there is one download error line for
each call that raised. -/
def PassEffect (w w1 : World) (targets : List (String × String)) : Prop :=
  ∃ (newcalls : List DlCall) (newlog : List String),
    w1.calls = w.calls ++ newcalls ∧
    w1.log = w.log ++ newlog ∧
    newcalls.map (fun c => (c.url, c.outputpath)) = targets ∧
    (newlog.filter isDownloadError).length = (newcalls.filter fun c => c.raised).length

/-- The demo environment in which the transfer of the first library fails. -/
def failingEnv : Env :=
  { demoEnv with
    curlPerform := fun url =>
      if url = "https://libraries.minecraft.net/brigadier.jar" then
        ⟨some "Could not resolve host name", []⟩
      else ⟨none, [80, 75]⟩ }

/-- The demo environment in which libzip cannot open the downloaded archives
(for instance because a transfer was cut short). -/
def corruptEnv : Env := { demoEnv with zipOpen := fun _ => none }

/-- A native record in the older manifest layout: a `downloads` section with
`classifiers` and no `artifact`. -/
def classifiersRecord : Json :=
  Json.obj
    [("name", Json.str "org.lwjgl.lwjgl:lwjgl-platform:2.9.4:natives-windows"),
     ("downloads", Json.obj [("classifiers", Json.obj [])])]

/-- A disk whose manifest file holds a document cut off after its first two
bytes, which the JSON parser rejects. -/
def malformedDisk : FS :=
  [(["C:", "cc", ".minecraft", "versions", "1.21", "1.21.json"], Node.file [123, 34]),
   (["C:", "cc", ".minecraft", "versions", "1.21", "1.21.jar"], Node.file [80, 75]),
   (["C:", "cc", ".minecraft", "java", "bin", "java.exe"], Node.file [77, 90])]

/-- The demo environment with a manifest that names its asset index. -/
def assetsEnv : Env :=
  { demoEnv with
    jsonParse := fun _ => .ok (Json.obj
      [("mainClass", Json.str "net.minecraft.client.main.Main"),
       ("assets", Json.str "17"),
       ("libraries", Json.arr [])]) }

/-- The demo environment with a manifest that has a main class but no
`libraries` array. -/
def noLibrariesEnv : Env :=
  { demoEnv with
    jsonParse := fun _ => .ok (Json.obj
      [("mainClass", Json.str "net.minecraft.client.main.Main")]) }

/-- A character list is a plain relative path: no root name (drive, server)
and no root directory (leading separator). -/
def plainRelativeL : List Char → Bool
  | [] => true
  | [c] => !isSlash c
  | c0 :: c1 :: _ => !isSlash c0 && !(c0.isAlpha && c1 == ':')

/-- The path string is a plain relative path. -/
def plainRelative (p : String) : Bool := plainRelativeL p.data

/-- The character map of `make_preferred`. -/
def preferChar (c : Char) : Char := if c == '/' then '\\' else c

/-- A dependency record whose `path` is an absolute path. -/
def absolutePathRecord : Json :=
  Json.obj
    [("name", Json.str "org.example:tool:1.0"),
     ("downloads", Json.obj [("artifact", Json.obj
        [("url", Json.str "https://example.org/tool.jar"),
         ("path", Json.str "C:\\Users\\Public\\tool.jar")])])]

/-- The native archive record of the demo installation. -/
def demoNativeRecord : Json :=
  Json.obj
    [("name", Json.str "org.lwjgl:lwjgl:3.3.3:natives-windows"),
     ("downloads", Json.obj [("artifact", Json.obj
        [("url", Json.str "https://libraries.minecraft.net/lwjgl-natives.jar"),
         ("path", Json.str "org/lwjgl/lwjgl-natives.jar")])])]

/-- The demo environment in which every transfer breaks off after one byte. -/
def truncatingEnv : Env :=
  { demoEnv with curlPerform := fun _ => ⟨some "Transferred a partial file", [80]⟩ }

/-! ## Frame lemmas: what the file and network operations leave untouched -/

theorem sameProcs_refl (w : World) : sameProcs w w := ⟨rfl, rfl⟩

theorem sameProcs_trans {a b c : World} (h1 : sameProcs a b) (h2 : sameProcs b c) :
    sameProcs a c :=
  ⟨h2.1.trans h1.1, h2.2.trans h1.2⟩

theorem sameProcs_logconsole (msg : String) (w : World) : sameProcs w (logconsole msg w) :=
  ⟨rfl, rfl⟩

theorem sameProcs_create_directories (env : Env) (p : String) (w : World) :
    sameProcs w (create_directories env p w).2 := by
  unfold create_directories
  split
  · exact sameProcs_refl w
  · split <;> exact ⟨rfl, rfl⟩

theorem sameProcs_openWrite {env : Env} {p : String} {w w1 : World}
    (h : openWrite env p w = some w1) : sameProcs w w1 := by
  unfold openWrite at h
  split at h
  · simp at h
  · split at h
    · simp at h
    · simp only [Option.some.injEq] at h
      subst h
      exact ⟨rfl, rfl⟩

theorem sameProcs_writeBytes (env : Env) (p : String) (b : Bytes) (w : World) :
    sameProcs w (writeBytes env p b w) := by
  unfold writeBytes
  split
  · exact ⟨rfl, rfl⟩
  · exact sameProcs_refl w

theorem sameProcs_copyloop (env : Env) (p : String) (cs : List Bytes) (w : World) :
    sameProcs w (copyloop env p cs w) := by
  induction cs generalizing w with
  | nil => exact sameProcs_refl w
  | cons c cs ih =>
    unfold copyloop
    split
    · exact sameProcs_trans (sameProcs_writeBytes env p c w) (ih _)
    · exact sameProcs_refl w

theorem sameProcs_extractentry (env : Env) (np : String) (i : Nat) (e : ZipEntry) (w : World) :
    sameProcs w (extractentry env np i e w) := by
  unfold extractentry
  dsimp only
  split
  · exact sameProcs_logconsole _ w
  · split
    · split
      · exact sameProcs_logconsole _ w
      · split
        · exact sameProcs_logconsole _ w
        · rename_i h
          exact sameProcs_trans (sameProcs_openWrite h) (sameProcs_copyloop _ _ _ _)
    · exact sameProcs_refl w

theorem sameProcs_extractentries (env : Env) (np : String) (es : List ZipEntry) (i : Nat)
    (w : World) : sameProcs w (extractentries env np i es w) := by
  induction es generalizing i w with
  | nil => exact sameProcs_refl w
  | cons e es ih =>
    unfold extractentries
    exact sameProcs_trans (sameProcs_extractentry env np i e w) (ih _ _)

theorem sameProcs_extractnatives (env : Env) (L : launcher) (jar : String) (w : World) :
    sameProcs w (extractnatives env L jar w).2 := by
  have h := sameProcs_create_directories env L.nativespath w
  unfold extractnatives
  split
  · rename_i heq
    rw [heq] at h
    exact h
  · rename_i heq
    rw [heq] at h
    split
    · exact h
    · exact sameProcs_trans h
        (sameProcs_trans (sameProcs_extractentries _ _ _ _ _) (sameProcs_logconsole _ _))

theorem sameProcs_downloadfilesBody (env : Env) (url out : String) (w : World) :
    sameProcs w (downloadfilesBody env url out w).2 := by
  have h := sameProcs_create_directories env (parent_path out) w
  unfold downloadfilesBody
  dsimp only
  split
  · rename_i heq
    rw [heq] at h
    exact h
  · rename_i heq
    rw [heq] at h
    split
    · exact sameProcs_trans h (sameProcs_logconsole _ _)
    · split
      · exact sameProcs_trans h (sameProcs_logconsole _ _)
      · rename_i w3 hopen
        have h3 : sameProcs w w3 :=
          sameProcs_trans (sameProcs_trans h (sameProcs_logconsole _ _)) (sameProcs_openWrite hopen)
        split
        · exact h3
        · have h4 : sameProcs w (writeBytes env out (env.curlPerform url).body
              { w3 with transfers := w3.transfers ++ [url] }) :=
            sameProcs_trans (sameProcs_trans h3 ⟨rfl, rfl⟩) (sameProcs_writeBytes _ _ _ _)
          split <;> exact h4

theorem sameProcs_downloadfiles (env : Env) (url out : String) (w : World) :
    sameProcs w (downloadfiles env url out w).2 := by
  have h := sameProcs_downloadfilesBody env url out w
  unfold downloadfiles
  split <;> (rename_i heq; rw [heq] at h; exact ⟨h.1, h.2⟩)

theorem sameProcs_forEach (body : Json → World → Except String Unit × World)
    (hbody : ∀ lib w, sameProcs w (body lib w).2) (libs : List Json) (w : World) :
    sameProcs w (forEach body libs w).2 := by
  induction libs generalizing w with
  | nil => exact sameProcs_refl w
  | cons lib rest ih =>
    have h := hbody lib w
    unfold forEach
    split
    · rename_i heq
      rw [heq] at h
      exact h
    · rename_i heq
      rw [heq] at h
      exact sameProcs_trans h (ih _)

theorem sameProcs_of_eq {α : Type} {w w1 : World} {r : α × World} {x : α}
    (heq : r = (x, w1)) (h : sameProcs w r.2) : sameProcs w w1 := by
  subst heq
  exact h

theorem sameProcs_downloadstep (env : Env) (L : launcher) (lib : Json) (w : World) :
    sameProcs w (downloadstep env L lib w).2 := by
  unfold downloadstep
  repeat' split
  all_goals first
    | exact sameProcs_refl w
    | exact sameProcs_logconsole _ w
    | (rename_i heq
       exact sameProcs_of_eq heq (sameProcs_downloadfiles _ _ _ _))
    | (rename_i heq
       exact sameProcs_trans (sameProcs_of_eq heq (sameProcs_downloadfiles _ _ _ _))
         (sameProcs_logconsole _ _))

theorem sameProcs_extractstep (env : Env) (L : launcher) (lib : Json) (w : World) :
    sameProcs w (extractstep env L lib w).2 := by
  unfold extractstep
  repeat' split
  all_goals first
    | exact sameProcs_refl w
    | exact sameProcs_extractnatives env L _ w

theorem sameProcs_setuplibraries (env : Env) (L : launcher) (libs : List Json) (w : World) :
    sameProcs w (setuplibraries env L libs w).2 := by
  have h := sameProcs_forEach _ (sameProcs_downloadstep env L) libs w
  unfold setuplibraries
  split
  · rename_i heq
    rw [heq] at h
    exact h
  · rename_i heq
    rw [heq] at h
    exact sameProcs_trans h (sameProcs_forEach _ (sameProcs_extractstep env L) libs _)

theorem sameProcs_setuplauncher (env : Env) (L : launcher) (w : World) :
    sameProcs w (setuplauncher env L w).2 := by
  unfold setuplauncher
  repeat' split
  all_goals first
    | exact sameProcs_refl w
    | exact sameProcs_logconsole _ w
    | exact sameProcs_setuplibraries env L _ w

theorem sameProcs_getclasspath (env : Env) (L : launcher) (w : World) :
    sameProcs w (getclasspath env L w).2 := by
  unfold getclasspath
  dsimp only
  repeat' split
  all_goals exact ⟨rfl, rfl⟩

theorem sameProcs_buildlaunchcommand (env : Env) (L : launcher) (username : String)
    (w : World) : sameProcs w (buildlaunchcommand env L username w).2 := by
  unfold buildlaunchcommand
  dsimp only
  split
  · exact sameProcs_logconsole _ w
  split
  · exact sameProcs_refl w
  split
  · exact sameProcs_refl w
  split
  · exact sameProcs_logconsole _ w
  split
  · exact sameProcs_refl w
  split
  · rename_i heq
    exact sameProcs_of_eq heq (sameProcs_getclasspath _ _ _)
  rename_i hcp
  have h1 := sameProcs_of_eq hcp (sameProcs_getclasspath _ _ _)
  split
  · rename_i heq
    exact sameProcs_trans h1 (sameProcs_of_eq heq (sameProcs_create_directories _ _ _))
  rename_i hd1
  have h2 := sameProcs_trans h1 (sameProcs_of_eq hd1 (sameProcs_create_directories _ _ _))
  split
  · rename_i heq
    exact sameProcs_trans h2 (sameProcs_of_eq heq (sameProcs_create_directories _ _ _))
  · rename_i heq
    exact sameProcs_trans h2 (sameProcs_of_eq heq (sameProcs_create_directories _ _ _))

/-- The flag `minecraftrunning` has the value after `launchprocess` that it had before. -/
theorem launchprocess_minecraftrunning (env : Env) (L : launcher) (username : String)
    (w : World) : (launchprocess env L username w).2.minecraftrunning = w.minecraftrunning := by
  unfold launchprocess
  dsimp only
  split
  · rename_i heq
    exact (sameProcs_of_eq heq (sameProcs_setuplauncher _ _ _)).2
  rename_i hs
  have h1 := sameProcs_of_eq hs (sameProcs_setuplauncher _ _ _)
  split
  · rename_i heq
    exact (sameProcs_trans h1 (sameProcs_of_eq heq (sameProcs_buildlaunchcommand _ _ _ _))).2
  rename_i hb
  have h2 := sameProcs_trans h1 (sameProcs_of_eq hb (sameProcs_buildlaunchcommand _ _ _ _))
  repeat' split
  all_goals exact h2.2

/-- The flag `minecraftrunning` is false in every state the program reaches:
no step sets it. -/
theorem minecraftrunning_never_set (evs : List Event) (w w1 : World)
    (hw : w.minecraftrunning = false) (hrun : run evs w = some w1) :
    w1.minecraftrunning = false := by
  induction evs generalizing w with
  | nil =>
    simp only [run, Option.some.injEq] at hrun
    rw [← hrun]
    exact hw
  | cons ev evs ih =>
    unfold run at hrun
    split at hrun
    · rename_i w2 hstep
      refine ih w2 ?_ hrun
      unfold step at hstep
      split at hstep
      · split at hstep
        · rename_i heq
          simp only [Option.some.injEq] at hstep
          rw [← hstep]
          exact (congrArg (fun r => r.2.minecraftrunning) heq).symm.trans
            ((launchprocess_minecraftrunning _ _ _ w).trans hw)
        · simp at hstep
      · split at hstep
        · simp only [Option.some.injEq] at hstep
          rw [← hstep]
          exact hw
        · simp at hstep
      · split at hstep
        · simp only [Option.some.injEq] at hstep
          rw [← hstep]
          rfl
        · simp at hstep
    · simp at hrun

/-! ## C1: the single-instance guard -/

set_option maxRecDepth 100000 in
/-- C1 (the code departs from the claim). After one successful launch on the demo
installation the created child process is alive and `minecraftrunning` is
false: the guard reports "free" while the spawned process is alive. The flag
is only ever assigned `false` (by the exit-waiter); nothing sets it. -/
theorem guard_free_while_child_alive :
    (run [Event.launch demoEnv "1.21" "alice"] (initial demoDisk)).map
      (fun w => (w.children.map (fun c => c.alive), w.minecraftrunning))
      = some ([true], false) := by
  decide

/-! ## C2: a manifest without `mainClass` -/

/-- A manifest whose `mainClass` is absent or the empty string yields the
empty main class. -/
theorem stringfield_mainClass_missing (j : Json)
    (hmain : j.contains "mainClass" = false ∨ j.get "mainClass" = .ok (Json.str "")) :
    stringfield j "mainClass" "" = .ok "" := by
  unfold stringfield
  rcases hmain with h | h
  · simp [h]
  · rw [h]
    split <;> rfl

/-- C2. When the manifest that `buildlaunchcommand` reads opens and parses but its
`mainClass` is absent or the empty string, then for every username
`buildlaunchcommand` logs the error and returns the empty string; and in
`launchprocess`, once `setuplauncher` has returned, the empty result is
answered with the log line "[Error] No launch arguments generated." and a
return. In every case `launchprocess` creates no child process. -/
theorem missing_mainclass_aborts (env : Env) (L : launcher) (username : String) (w1 : World)
    (bytes : Bytes) (j : Json)
    (hopen : readFile env w1 L.jsonpath = some bytes)
    (hparse : env.jsonParse bytes = .ok j)
    (hmain : j.contains "mainClass" = false ∨ j.get "mainClass" = .ok (Json.str "")) :
    buildlaunchcommand env L username w1
        = (.ok "", logconsole "[Error] mainClass missing in version JSON." w1) ∧
    ∀ w : World, (setuplauncher env L w).2 = w1 →
      ((setuplauncher env L w).1 = .ok () →
        launchprocess env L username w
          = (.ok (), logconsole "[Error] No launch arguments generated."
              (logconsole "[Error] mainClass missing in version JSON." w1))) ∧
      (launchprocess env L username w).2.children = w.children := by
  have hb : buildlaunchcommand env L username w1
      = (.ok "", logconsole "[Error] mainClass missing in version JSON." w1) := by
    unfold buildlaunchcommand
    simp only [hopen, hparse, stringfield_mainClass_missing j hmain, if_true]
  refine ⟨hb, ?_⟩
  intro w hw
  have hs := sameProcs_setuplauncher env L w
  rcases hsl : setuplauncher env L w with ⟨r, w2⟩
  rw [hsl] at hw hs
  simp only at hw
  subst hw
  cases r with
  | error e =>
    refine ⟨fun h => by simp at h, ?_⟩
    unfold launchprocess
    simp only [hsl]
    exact hs.1
  | ok u =>
    have hl : launchprocess env L username w
        = (.ok (), logconsole "[Error] No launch arguments generated."
            (logconsole "[Error] mainClass missing in version JSON." w2)) := by
      unfold launchprocess
      simp only [hsl, hb, if_true]
    refine ⟨fun _ => hl, ?_⟩
    rw [hl]
    exact hs.1

/-- C2 on the demo installation with a manifest that has no `mainClass`. -/
theorem missing_mainclass_aborts_witness :
    buildlaunchcommand noMainEnv (launcher.launcher "1.21") "alice" (initial demoDisk)
        = (.ok "", logconsole "[Error] mainClass missing in version JSON." (initial demoDisk)) ∧
    launchprocess noMainEnv (launcher.launcher "1.21") "alice" (initial demoDisk)
        = (.ok (), logconsole "[Error] No launch arguments generated."
            (logconsole "[Error] mainClass missing in version JSON." (initial demoDisk))) ∧
    (launchprocess noMainEnv (launcher.launcher "1.21") "alice" (initial demoDisk)).2.children
        = [] :=
  have h := missing_mainclass_aborts noMainEnv (launcher.launcher "1.21") "alice"
    (initial demoDisk) [123] (Json.obj [("libraries", Json.arr [])]) (by decide) rfl (Or.inl rfl)
  ⟨h.1, (h.2 (initial demoDisk) (by decide)).1 rfl, (h.2 (initial demoDisk) (by decide)).2⟩

/-! ## File-system lemmas -/

theorem fsLookup_append (fs : FS) (k key : List String) (n : Node) :
    fsLookup (fs ++ [(k, n)]) key =
      match fsLookup fs key with
      | some m => some m
      | none => if k = key then some n else none := by
  induction fs with
  | nil => simp [fsLookup]
  | cons kn rest ih =>
    obtain ⟨k1, n1⟩ := kn
    simp only [List.cons_append, fsLookup]
    split
    · rfl
    · exact ih

theorem fsLookup_fsPut (fs : FS) (k key : List String) (n : Node) :
    fsLookup (fsPut fs k n) key = if k = key then some n else fsLookup fs key := by
  induction fs with
  | nil => simp [fsPut, fsLookup]
  | cons kn rest ih =>
    obtain ⟨k1, n1⟩ := kn
    unfold fsPut
    by_cases h1 : k1 = k
    · subst h1
      simp only [if_true, fsLookup]
      split <;> rfl
    · simp only [h1, if_false, fsLookup]
      by_cases h2 : k1 = key
      · subst h2
        simp only [if_true]
        rw [if_neg (fun h => h1 h.symm)]
      · simp only [h2, if_false]
        exact ih

/-- A location that holds something keeps it when directories are created. -/
theorem fsLookup_mkdirs (ks : List (List String)) (fs : FS) (key : List String) (n : Node)
    (h : fsLookup fs key = some n) : fsLookup (mkdirs ks fs).2 key = some n := by
  induction ks generalizing fs with
  | nil => exact h
  | cons k ks ih =>
    unfold mkdirs
    split
    · exact h
    · exact ih fs h
    · refine ih _ ?_
      rw [fsLookup_append, h]

/-- After a successful creation every requested location is a directory. -/
theorem mkdirs_dirs (ks : List (List String)) (fs : FS) (h : (mkdirs ks fs).1 = true) :
    ∀ k ∈ ks, fsLookup (mkdirs ks fs).2 k = some Node.dir := by
  induction ks generalizing fs with
  | nil => intro k hk; cases hk
  | cons k0 ks ih =>
    intro k hk
    unfold mkdirs at h ⊢
    split at h
    · simp at h
    · rename_i hl
      rcases List.mem_cons.1 hk with rfl | hk
      · exact fsLookup_mkdirs ks fs _ _ hl
      · exact ih fs h k hk
    · rename_i hl
      rcases List.mem_cons.1 hk with rfl | hk
      · refine fsLookup_mkdirs ks _ _ _ ?_
        rw [fsLookup_append, hl]
        simp
      · exact ih _ h k hk

/-- Creating directories that all exist changes nothing. -/
theorem mkdirs_of_dirs (ks : List (List String)) (fs : FS)
    (h : ∀ k ∈ ks, fsLookup fs k = some Node.dir) : mkdirs ks fs = (true, fs) := by
  induction ks with
  | nil => rfl
  | cons k ks ih =>
    unfold mkdirs
    rw [h k (List.mem_cons_self _ _)]
    exact ih fun k1 hk1 => h k1 (List.mem_cons_of_mem _ hk1)

theorem create_directories_ok {env : Env} {p : String} {w : World}
    (h : (create_directories env p w).1 = .ok ()) :
    env.mkdirError p = none ∧ (mkdirs (prefixes (env.resolve p)) w.fs).1 = true ∧
      create_directories env p w
        = (.ok (), { w with fs := (mkdirs (prefixes (env.resolve p)) w.fs).2 }) := by
  unfold create_directories at h ⊢
  split at h
  · simp at h
  · rename_i hm
    split at h
    · rename_i fs heq
      simp [hm, heq]
    · simp at h

theorem create_directories_noop {env : Env} {p : String} {w : World}
    (hm : env.mkdirError p = none)
    (hd : ∀ k ∈ prefixes (env.resolve p), fsLookup w.fs k = some Node.dir) :
    create_directories env p w = (.ok (), w) := by
  unfold create_directories
  simp only [hm, mkdirs_of_dirs _ _ hd]

theorem fsLookup_create_directories (env : Env) (p : String) (w : World) (key : List String)
    (n : Node) (h : fsLookup w.fs key = some n) :
    fsLookup (create_directories env p w).2.fs key = some n := by
  have hk := fsLookup_mkdirs (prefixes (env.resolve p)) w.fs key n h
  unfold create_directories
  split
  · exact h
  · split
    · rename_i heq
      rw [heq] at hk
      exact hk
    · rename_i heq
      rw [heq] at hk
      exact hk

theorem fsLookup_openWrite {env : Env} {p : String} {w w1 : World}
    (h : openWrite env p w = some w1) (key : List String) :
    fsLookup w1.fs key
      = if env.resolve p = key then some (Node.file []) else fsLookup w.fs key := by
  unfold openWrite at h
  split at h
  · simp at h
  · split at h
    · simp at h
    · simp only [Option.some.injEq] at h
      subst h
      exact fsLookup_fsPut _ _ _ _

theorem openWrite_notdir {env : Env} {p : String} {w w1 : World}
    (h : openWrite env p w = some w1) : fsLookup w.fs (env.resolve p) ≠ some Node.dir := by
  unfold openWrite at h
  split at h
  · simp at h
  · split at h
    · simp at h
    · rename_i hne
      exact fun hd => hne hd

/-- Writing to a file keeps every directory and every existing location. -/
theorem fsLookup_writeBytes_isSome (env : Env) (p : String) (b : Bytes) (w : World)
    (key : List String) :
    (fsLookup (writeBytes env p b w).fs key).isSome = (fsLookup w.fs key).isSome ∧
    (fsLookup w.fs key = some Node.dir → fsLookup (writeBytes env p b w).fs key = some Node.dir) := by
  unfold writeBytes
  split
  · rename_i old hl
    simp only [fsLookup_fsPut]
    by_cases hk : env.resolve p = key
    · subst hk
      simp [hl]
    · simp [hk]
  · exact ⟨rfl, fun h => h⟩

theorem downloadfiles_fst (env : Env) (url out : String) (w : World) :
    (downloadfiles env url out w).1 = (downloadfilesBody env url out w).1 := by
  unfold downloadfiles
  split <;> (rename_i heq; rw [heq])

theorem downloadfiles_fs (env : Env) (url out : String) (w : World) :
    (downloadfiles env url out w).2.fs = (downloadfilesBody env url out w).2.fs := by
  unfold downloadfiles
  split <;> (rename_i heq; rw [heq])

theorem downloadfiles_log (env : Env) (url out : String) (w : World) :
    (downloadfiles env url out w).2.log = (downloadfilesBody env url out w).2.log := by
  unfold downloadfiles
  split <;> (rename_i heq; rw [heq])

theorem downloadfiles_transfers (env : Env) (url out : String) (w : World) :
    (downloadfiles env url out w).2.transfers
      = (downloadfilesBody env url out w).2.transfers := by
  unfold downloadfiles
  split <;> (rename_i heq; rw [heq])

theorem create_directories_frame (env : Env) (p : String) (w : World) :
    (create_directories env p w).2.transfers = w.transfers ∧
    (create_directories env p w).2.log = w.log ∧
    (create_directories env p w).2.calls = w.calls := by
  unfold create_directories
  split
  · exact ⟨rfl, rfl, rfl⟩
  · split <;> exact ⟨rfl, rfl, rfl⟩

theorem fsExists_create_directories (env : Env) (p out : String) (w : World)
    (h : fsExists env w out = true) :
    fsExists env (create_directories env p w).2 out = true := by
  unfold fsExists at h ⊢
  rcases hl : fsLookup w.fs (env.resolve out) with _ | n
  · rw [hl] at h
    simp at h
  · rw [fsLookup_create_directories env p w _ n hl]
    rfl

theorem fsExists_openWrite {env : Env} {p : String} {w w1 : World}
    (h : openWrite env p w = some w1) : fsExists env w1 p = true := by
  unfold fsExists
  rw [fsLookup_openWrite h, if_pos rfl]
  rfl

theorem fsExists_writeBytes (env : Env) (p out : String) (b : Bytes) (w : World) :
    fsExists env (writeBytes env p b w) out = fsExists env w out :=
  (fsLookup_writeBytes_isSome env p b w (env.resolve out)).1

/-- One call of `downloadfiles` runs at most one transfer, and a transfer
leaves the destination on disk. -/
theorem downloadfilesBody_transfers (env : Env) (url out : String) (w : World) :
    (downloadfilesBody env url out w).2.transfers = w.transfers ∨
    ((downloadfilesBody env url out w).2.transfers = w.transfers ++ [url] ∧
      fsExists env (downloadfilesBody env url out w).2 out = true) := by
  have hfr := (create_directories_frame env (parent_path out) w).1
  unfold downloadfilesBody
  rcases hcd : create_directories env (parent_path out) w with ⟨_ | _, w0⟩
  · rw [hcd] at hfr
    left
    exact hfr
  · rw [hcd] at hfr
    simp only at hfr ⊢
    by_cases hex : fsExists env w0 out = true
    · left
      simp only [hex, if_true]
      exact hfr
    · simp only [hex, Bool.false_eq_true, if_false]
      rcases hop : openWrite env out (logconsole ("[Download] " ++ url) w0) with _ | w3
      · left
        exact hfr
      · have h3 : w3.transfers = w.transfers := by
          unfold openWrite at hop
          split at hop
          · simp at hop
          · split at hop
            · simp at hop
            · simp only [Option.some.injEq] at hop
              rw [← hop]
              exact hfr
        have hex3 := fsExists_openWrite hop
        simp only
        by_cases hci : env.curlInitFails url = true
        · left
          simp only [hci, if_true]
          exact h3
        · right
          simp only [hci, Bool.false_eq_true, if_false]
          have hw4 : (writeBytes env out (env.curlPerform url).body
              { w3 with transfers := w3.transfers ++ [url] }).transfers = w.transfers ++ [url] := by
            unfold writeBytes
            split <;> simp [h3]
          have hex4 : fsExists env (writeBytes env out (env.curlPerform url).body
              { w3 with transfers := w3.transfers ++ [url] }) out = true := by
            rw [fsExists_writeBytes]
            exact hex3
          split <;> exact ⟨hw4, hex4⟩

/-- A call of `downloadfiles` whose destination exists runs no transfer and
leaves the destination in place. -/
theorem downloadfilesBody_present (env : Env) (url out : String) (w : World)
    (h : fsExists env w out = true) :
    (downloadfilesBody env url out w).2.transfers = w.transfers ∧
      fsExists env (downloadfilesBody env url out w).2 out = true := by
  have hfr := (create_directories_frame env (parent_path out) w).1
  have hex := fsExists_create_directories env (parent_path out) out w h
  unfold downloadfilesBody
  rcases hcd : create_directories env (parent_path out) w with ⟨_ | _, w0⟩
  · rw [hcd] at hfr hex
    exact ⟨hfr, hex⟩
  · rw [hcd] at hfr hex
    simp only at hfr hex ⊢
    simp only [hex, if_true]
    exact ⟨hfr, hex⟩

/-- The skip path: with the parent directories in place and the destination
present, `downloadfiles` only logs. -/
theorem downloadfilesBody_skip {env : Env} {url out : String} {w : World}
    (hm : env.mkdirError (parent_path out) = none)
    (hd : ∀ k ∈ prefixes (env.resolve (parent_path out)), fsLookup w.fs k = some Node.dir)
    (hex : fsExists env w out = true) :
    downloadfilesBody env url out w = (.ok (), logconsole ("[Skip] " ++ out) w) := by
  unfold downloadfilesBody
  simp only [create_directories_noop hm hd, hex, if_true]

/-- Everything `downloadfiles` does after the directories exist keeps directories in place. -/
theorem downloadfilesBody_dirs (env : Env) (url out : String) (w : World) (key : List String)
    (h : fsLookup w.fs key = some Node.dir) :
    fsLookup (downloadfilesBody env url out w).2.fs key = some Node.dir := by
  have h0 := fsLookup_create_directories env (parent_path out) w key _ h
  unfold downloadfilesBody
  rcases hcd : create_directories env (parent_path out) w with ⟨_ | _, w0⟩
  · rw [hcd] at h0
    exact h0
  · rw [hcd] at h0
    simp only at h0 ⊢
    by_cases hex : fsExists env w0 out = true
    · simp only [hex, if_true]
      exact h0
    · simp only [hex, Bool.false_eq_true, if_false]
      rcases hop : openWrite env out (logconsole ("[Download] " ++ url) w0) with _ | w3
      · exact h0
      · have h3 : fsLookup w3.fs key = some Node.dir := by
          rw [fsLookup_openWrite hop]
          have hnd := openWrite_notdir hop
          by_cases hk : env.resolve out = key
          · subst hk
            exact absurd h0 hnd
          · rw [if_neg hk]
            exact h0
        simp only
        by_cases hci : env.curlInitFails url = true
        · simp only [hci, if_true]
          exact h3
        · simp only [hci, Bool.false_eq_true, if_false]
          have h4 := (fsLookup_writeBytes_isSome env out (env.curlPerform url).body
            { w3 with transfers := w3.transfers ++ [url] } key).2 h3
          split <;> exact h4

/-- The download path: destination absent, output file can be opened, curl initialises. -/
theorem downloadfilesBody_fetch {env : Env} {url out : String} {w : World}
    (hdir : (create_directories env (parent_path out) w).1 = .ok ())
    (hex : fsExists env (create_directories env (parent_path out) w).2 out = false)
    (hwd : env.writeDenied out = false) (hci : env.curlInitFails url = false) :
    (downloadfilesBody env url out w).2.transfers = w.transfers ++ [url] := by
  have hfr := (create_directories_frame env (parent_path out) w).1
  unfold downloadfilesBody
  rcases hcd : create_directories env (parent_path out) w with ⟨_ | _, w0⟩
  · rw [hcd] at hdir
    simp at hdir
  · rw [hcd] at hfr hex
    simp only at hfr hex ⊢
    have hl : fsLookup w0.fs (env.resolve out) = none := by
      unfold fsExists at hex
      cases hq : fsLookup w0.fs (env.resolve out) with
      | none => rfl
      | some n => rw [hq] at hex; simp at hex
    have hop : openWrite env out (logconsole ("[Download] " ++ url) w0)
        = some { logconsole ("[Download] " ++ url) w0 with
            fs := fsPut w0.fs (env.resolve out) (Node.file []) } := by
      unfold openWrite
      simp only [hwd, Bool.false_eq_true, if_false]
      have : fsLookup (logconsole ("[Download] " ++ url) w0).fs (env.resolve out) = none := hl
      rw [this]
      rfl
    simp only [hex, Bool.false_eq_true, if_false, hop, hci]
    have hw4 : (writeBytes env out (env.curlPerform url).body
        { ({ logconsole ("[Download] " ++ url) w0 with
            fs := fsPut w0.fs (env.resolve out) (Node.file []) } : World) with
          transfers := w0.transfers ++ [url] }).transfers = w.transfers ++ [url] := by
      unfold writeBytes
      split <;> simp [hfr]
    split <;> exact hw4

/-- A call of `downloadfiles` that returns normally leaves the destination on disk. -/
theorem downloadfilesBody_ok_present (env : Env) (url out : String) (w : World)
    (h : (downloadfilesBody env url out w).1 = .ok ()) :
    fsExists env (downloadfilesBody env url out w).2 out = true := by
  unfold downloadfilesBody at h ⊢
  rcases hcd : create_directories env (parent_path out) w with ⟨_ | _, w0⟩
  · rw [hcd] at h
    simp at h
  · rw [hcd] at h
    simp only at h ⊢
    by_cases hex : fsExists env w0 out = true
    · simp only [hex, if_true]
      exact hex
    · simp only [hex, Bool.false_eq_true, if_false] at h ⊢
      rcases hop : openWrite env out (logconsole ("[Download] " ++ url) w0) with _ | w3
      · rw [hop] at h
        simp at h
      · rw [hop] at h
        simp only at h ⊢
        by_cases hci : env.curlInitFails url = true
        · simp [hci] at h
        · simp only [hci, Bool.false_eq_true, if_false]
          have hex3 : fsExists env w3 out = true := fsExists_openWrite hop
          have hex4 : fsExists env (writeBytes env out (env.curlPerform url).body
              { w3 with transfers := w3.transfers ++ [url] }) out = true := by
            rw [fsExists_writeBytes]
            exact hex3
          split <;> exact hex4

/-! ## C3: calling `downloadfiles` twice with the same destination -/

/-- C3 as stated fails: when the destination already exists before the first
call (here the main archive of the demo installation), two calls in a row run
no network transfer at all, not exactly one. -/
theorem downloadfiles_twice_present_no_transfer :
    (downloadfiles demoEnv "https://example.org/a.jar" ".minecraft\\versions\\1.21\\1.21.jar"
      (downloadfiles demoEnv "https://example.org/a.jar" ".minecraft\\versions\\1.21\\1.21.jar"
        (initial demoDisk)).2).2.transfers.length
      ≠ (initial demoDisk).transfers.length + 1 := by
  decide

/-- C3 (amended). Let `downloadfiles` be called twice in a row with the same url and
destination, in an environment in which the parent directories of the
destination can be created. Then
* the two calls run at most one network transfer in total;
* none when the destination existed before the first call;
* exactly one (of `url`) when the destination was absent, the output file can
  be opened and curl initialises;
* the destination is present after a first call that returned normally;
* whenever the destination is present after the first call, the second call
  returns normally, runs no transfer, leaves the file system as it is and
  logs exactly "[Skip] <destination>". -/
theorem downloadfiles_twice (env : Env) (url dest : String) (w : World)
    (hdir : (create_directories env (parent_path dest) w).1 = .ok ()) :
    (downloadfiles env url dest (downloadfiles env url dest w).2).2.transfers.length
        ≤ w.transfers.length + 1 ∧
    (fsExists env w dest = true →
      (downloadfiles env url dest (downloadfiles env url dest w).2).2.transfers = w.transfers) ∧
    (fsExists env (create_directories env (parent_path dest) w).2 dest = false →
      env.writeDenied dest = false → env.curlInitFails url = false →
      (downloadfiles env url dest (downloadfiles env url dest w).2).2.transfers
        = w.transfers ++ [url]) ∧
    ((downloadfiles env url dest w).1 = .ok () →
      fsExists env (downloadfiles env url dest w).2 dest = true) ∧
    (fsExists env (downloadfiles env url dest w).2 dest = true →
      (downloadfiles env url dest (downloadfiles env url dest w).2).1 = .ok () ∧
      (downloadfiles env url dest (downloadfiles env url dest w).2).2.fs
        = (downloadfiles env url dest w).2.fs ∧
      (downloadfiles env url dest (downloadfiles env url dest w).2).2.transfers
        = (downloadfiles env url dest w).2.transfers ∧
      (downloadfiles env url dest (downloadfiles env url dest w).2).2.log
        = (downloadfiles env url dest w).2.log ++ ["[Skip] " ++ dest]) := by
  -- the state after the first call, seen through `fsExists`, `fs` and `transfers`
  have hex1 : ∀ p, fsExists env (downloadfiles env url dest w).2 p
      = fsExists env (downloadfilesBody env url dest w).2 p := by
    intro p
    unfold fsExists
    rw [downloadfiles_fs]
  have ht1 := downloadfiles_transfers env url dest w
  -- a present destination makes the second call transfer-free
  have hsecond : fsExists env (downloadfiles env url dest w).2 dest = true →
      (downloadfiles env url dest (downloadfiles env url dest w).2).2.transfers
        = (downloadfiles env url dest w).2.transfers := by
    intro h
    rw [downloadfiles_transfers]
    exact (downloadfilesBody_present env url dest _ h).1
  refine ⟨?_, ?_, ?_, ?_, ?_⟩
  · by_cases hp : fsExists env (downloadfiles env url dest w).2 dest = true
    · rw [hsecond hp, ht1]
      rcases downloadfilesBody_transfers env url dest w with h | ⟨h, _⟩
      · rw [h]
        exact Nat.le_succ _
      · rw [h]
        simp
    · have h1 : (downloadfilesBody env url dest w).2.transfers = w.transfers := by
        rcases downloadfilesBody_transfers env url dest w with h | ⟨_, h⟩
        · exact h
        · rw [← hex1] at h
          exact absurd h hp
      rw [downloadfiles_transfers]
      rcases downloadfilesBody_transfers env url dest (downloadfiles env url dest w).2
        with h | ⟨h, _⟩
      · rw [h, ht1, h1]
        exact Nat.le_succ _
      · rw [h, ht1, h1]
        simp
  · intro hp
    have h1 := downloadfilesBody_present env url dest w hp
    rw [hsecond (by rw [hex1]; exact h1.2), ht1]
    exact h1.1
  · intro hab hwd hci
    have h1 := downloadfilesBody_fetch hdir hab hwd hci
    have hp : fsExists env (downloadfiles env url dest w).2 dest = true := by
      rw [hex1]
      rcases downloadfilesBody_transfers env url dest w with h | ⟨_, h⟩
      · rw [h1] at h
        simp at h
      · exact h
    rw [hsecond hp, ht1]
    exact h1
  · intro hok
    rw [hex1]
    rw [downloadfiles_fst] at hok
    exact downloadfilesBody_ok_present env url dest w hok
  · intro hp
    obtain ⟨hm, hmk, _⟩ := create_directories_ok hdir
    have hd0 := mkdirs_dirs _ _ hmk
    have hd1 : ∀ k ∈ prefixes (env.resolve (parent_path dest)),
        fsLookup (downloadfiles env url dest w).2.fs k = some Node.dir := by
      intro k hk
      rw [downloadfiles_fs]
      -- the directory exists after `create_directories`, hence after the whole first call
      unfold downloadfilesBody
      rcases hcd : create_directories env (parent_path dest) w with ⟨_ | _, w0⟩
      · rw [hcd] at hdir
        simp at hdir
      · have hk0 : fsLookup w0.fs k = some Node.dir := by
          have := hd0 k hk
          have hcd2 := (create_directories_ok hdir).2.2
          rw [hcd] at hcd2
          simp only [Prod.mk.injEq, true_and] at hcd2
          rw [hcd2]
          exact this
        have hb := downloadfilesBody_dirs env url dest w0 k hk0
        have hnoop : create_directories env (parent_path dest) w0 = (.ok (), w0) := by
          refine create_directories_noop hm ?_
          intro k1 hk1
          have := hd0 k1 hk1
          have hcd2 := (create_directories_ok hdir).2.2
          rw [hcd] at hcd2
          simp only [Prod.mk.injEq, true_and] at hcd2
          rw [hcd2]
          exact this
        unfold downloadfilesBody at hb
        rw [hnoop] at hb
        exact hb
    have hskip := @downloadfilesBody_skip env url dest _ hm hd1 hp
    refine ⟨?_, ?_, ?_, ?_⟩
    · rw [downloadfiles_fst, hskip]
    · rw [downloadfiles_fs, hskip]
      rfl
    · rw [downloadfiles_transfers, hskip]
      rfl
    · rw [downloadfiles_log, hskip]
      rfl

set_option maxRecDepth 100000 in
/-- C3 (amended) on the demo installation: the destination is absent at first, the
two calls run exactly one transfer, and the second call returns normally
and leaves the file system as the first call left it. -/
theorem downloadfiles_twice_witness :
    (downloadfiles demoEnv "https://example.org/a.jar" ".minecraft\\versions\\1.21\\libraries\\a.jar"
      (downloadfiles demoEnv "https://example.org/a.jar"
        ".minecraft\\versions\\1.21\\libraries\\a.jar" (initial demoDisk)).2).2.transfers
      = (initial demoDisk).transfers ++ ["https://example.org/a.jar"] ∧
    (downloadfiles demoEnv "https://example.org/a.jar" ".minecraft\\versions\\1.21\\libraries\\a.jar"
      (downloadfiles demoEnv "https://example.org/a.jar"
        ".minecraft\\versions\\1.21\\libraries\\a.jar" (initial demoDisk)).2).1 = .ok () ∧
    (downloadfiles demoEnv "https://example.org/a.jar" ".minecraft\\versions\\1.21\\libraries\\a.jar"
      (downloadfiles demoEnv "https://example.org/a.jar"
        ".minecraft\\versions\\1.21\\libraries\\a.jar" (initial demoDisk)).2).2.fs
      = (downloadfiles demoEnv "https://example.org/a.jar"
        ".minecraft\\versions\\1.21\\libraries\\a.jar" (initial demoDisk)).2.fs :=
  have h := downloadfiles_twice demoEnv "https://example.org/a.jar"
    ".minecraft\\versions\\1.21\\libraries\\a.jar" (initial demoDisk) rfl
  ⟨h.2.2.1 (by decide) (by decide) (by decide),
   (h.2.2.2.2 (h.2.2.2.1 rfl)).1, (h.2.2.2.2 (h.2.2.2.1 rfl)).2.1⟩

/-! ## C4: which archive entries are extracted -/

theorem fsExists_copyloop (env : Env) (p out : String) (cs : List Bytes) (w : World) :
    fsExists env (copyloop env p cs w) out = fsExists env w out := by
  induction cs generalizing w with
  | nil => rfl
  | cons c cs ih =>
    unfold copyloop
    split
    · rw [ih, fsExists_writeBytes]
    · rfl

/-- The loop condition in terms of suffixes: more than four characters, the
last four being `.dll`. -/
theorem dllentry_iff (name : String) :
    dllentry name = true ↔ 4 < name.length ∧ endsWithDll name := by
  unfold dllentry endsWithDll
  simp only [Bool.and_eq_true, decide_eq_true_eq]
  constructor
  · rintro ⟨hlen, hdrop⟩
    refine ⟨hlen, ?_⟩
    rw [← hdrop]
    exact List.drop_suffix _ _
  · rintro ⟨hlen, t, ht⟩
    refine ⟨hlen, ?_⟩
    have hl : name.length = t.length + 4 := by
      show name.data.length = t.length + 4
      rw [← ht]
      simp
    rw [hl, ← ht]
    simp

/-- C4 as stated fails: the entry named exactly `.dll` ends with the suffix `.dll`,
yet the loop does not select it: with a readable, openable entry and a
writable output nothing is written and nothing is logged. -/
theorem dll_only_name_not_extracted :
    endsWithDll ".dll" ∧
    extractentry demoEnv ".minecraft\\natives\\1.21" 0 ⟨some ".dll", some [[77, 90]]⟩
      (initial demoDisk) = initial demoDisk :=
  ⟨List.suffix_refl _, by decide⟩

/-- C4 (amended). An entry with a readable name is selected by the extraction loop if
and only if its name has more than four characters and ends with `.dll`.
An entry whose name does not end with `.dll` is ignored: the state is left
as it is (no file, no log line). A selected entry that can be opened and
whose output file can be created is written to `nativespath / filename`. -/
theorem dllentry_selection (env : Env) (np : String) (i : Nat) (name : String)
    (reads : Option (List Bytes)) (w : World) :
    (dllentry name = true ↔ 4 < name.length ∧ endsWithDll name) ∧
    (¬ endsWithDll name → extractentry env np i ⟨some name, reads⟩ w = w) ∧
    (dllentry name = true → ∀ chunks w1, reads = some chunks →
      openWrite env (pathAppend np (filename name)) w = some w1 →
      extractentry env np i ⟨some name, reads⟩ w
        = copyloop env (pathAppend np (filename name)) chunks w1 ∧
      fsExists env (extractentry env np i ⟨some name, reads⟩ w)
        (pathAppend np (filename name)) = true) := by
  refine ⟨dllentry_iff name, ?_, ?_⟩
  · intro hn
    have hd : dllentry name = false := by
      cases h : dllentry name with
      | false => rfl
      | true => exact absurd ((dllentry_iff name).1 h).2 hn
    unfold extractentry
    simp only [hd]
    rfl
  · intro hd chunks w1 hr hop
    have he : extractentry env np i ⟨some name, reads⟩ w
        = copyloop env (pathAppend np (filename name)) chunks w1 := by
      unfold extractentry
      simp only [hd, if_true, hr, hop]
    refine ⟨he, ?_⟩
    rw [he, fsExists_copyloop]
    exact fsExists_openWrite hop

set_option maxRecDepth 100000 in
/-- C4 (amended) on the demo installation: `lib/win64/foo.dll` is selected and written
to `foo.dll` in the natives directory. -/
theorem dllentry_selection_witness :
    fsExists demoEnv
      (extractentry demoEnv ".minecraft\\natives\\1.21" 0
        ⟨some "lib/win64/foo.dll", some [[77, 90]]⟩ (initial demoDisk))
      ".minecraft\\natives\\1.21\\foo.dll" = true :=
  ((dllentry_selection demoEnv ".minecraft\\natives\\1.21" 0 "lib/win64/foo.dll"
      (some [[77, 90]]) (initial demoDisk)).2.2 (by decide) [[77, 90]]
    { initial demoDisk with
      fs := fsPut demoDisk (demoEnv.resolve ".minecraft\\natives\\1.21\\foo.dll") (Node.file []) }
    rfl (by decide)).2

/-! ## The file system as a set of locations -/

theorem fsLookup_eq_none_iff (fs : FS) (key : List String) :
    fsLookup fs key = none ↔ key ∉ keys fs := by
  induction fs with
  | nil => simp [fsLookup, keys]
  | cons kn rest ih =>
    obtain ⟨k, n⟩ := kn
    unfold fsLookup
    by_cases h : k = key
    · subst h
      rw [if_pos rfl]
      constructor
      · intro hc
        cases hc
      · intro hc
        exact absurd (List.mem_cons_self k (keys rest)) hc
    · simp only [h, if_false, ih]
      simp only [keys, List.map_cons, List.mem_cons, not_or]
      exact ⟨fun hr => ⟨fun he => h he.symm, hr⟩, fun hr => hr.2⟩

theorem fsLookup_mem {fs : FS} {key : List String} {n : Node} (h : fsLookup fs key = some n) :
    (key, n) ∈ fs := by
  induction fs with
  | nil => simp [fsLookup] at h
  | cons kn rest ih =>
    obtain ⟨k, m⟩ := kn
    unfold fsLookup at h
    split at h
    · rename_i hk
      simp only [Option.some.injEq] at h
      subst hk h
      exact List.mem_cons_self _ _
    · exact List.mem_cons_of_mem _ (ih h)

theorem fsLookup_of_mem {fs : FS} {key : List String} {n : Node} (hnd : (keys fs).Nodup)
    (h : (key, n) ∈ fs) : fsLookup fs key = some n := by
  induction fs with
  | nil => cases h
  | cons kn rest ih =>
    obtain ⟨k, m⟩ := kn
    simp only [keys, List.map_cons, List.nodup_cons] at hnd
    unfold fsLookup
    rcases List.mem_cons.1 h with heq | hmem
    · simp only [Prod.mk.injEq] at heq
      rw [heq.1, heq.2, if_pos rfl]
    · have hne : k ≠ key := by
        intro hk
        subst hk
        exact hnd.1 (List.mem_map_of_mem Prod.fst hmem)
      rw [if_neg hne]
      exact ih hnd.2 hmem

theorem keys_fsPut (fs : FS) (k : List String) (n : Node) :
    keys (fsPut fs k n) = if k ∈ keys fs then keys fs else keys fs ++ [k] := by
  induction fs with
  | nil => simp [fsPut, keys]
  | cons kn rest ih =>
    obtain ⟨k1, m⟩ := kn
    unfold fsPut
    by_cases h : k1 = k
    · subst h
      have hm : k1 ∈ keys ((k1, m) :: rest) := List.mem_cons_self k1 (keys rest)
      rw [if_pos rfl, if_pos hm]
      rfl
    · simp only [h, if_false]
      have ih2 : List.map Prod.fst (fsPut rest k n)
          = if k ∈ List.map Prod.fst rest then List.map Prod.fst rest
            else List.map Prod.fst rest ++ [k] := ih
      simp only [keys, List.map_cons, List.mem_cons, ih2]
      have hne : ¬ k = k1 := fun he => h he.symm
      by_cases hm : k ∈ List.map Prod.fst rest
      · simp [hm]
      · simp [hm, hne]

theorem nodup_fsPut (fs : FS) (k : List String) (n : Node) (h : (keys fs).Nodup) :
    (keys (fsPut fs k n)).Nodup := by
  rw [keys_fsPut]
  split
  · exact h
  · rename_i hk
    rw [List.nodup_append]
    refine ⟨h, List.nodup_singleton _, ?_⟩
    intro a ha hb
    rw [List.mem_singleton] at hb
    subst hb
    exact hk ha

theorem nodup_mkdirs (ks : List (List String)) (fs : FS) (h : (keys fs).Nodup) :
    (keys (mkdirs ks fs).2).Nodup := by
  induction ks generalizing fs with
  | nil => exact h
  | cons k ks ih =>
    unfold mkdirs
    split
    · exact h
    · exact ih fs h
    · rename_i hl
      refine ih _ ?_
      have hk := (fsLookup_eq_none_iff fs k).1 hl
      simp only [keys, List.map_append, List.map_cons, List.map_nil]
      rw [List.nodup_append]
      refine ⟨h, List.nodup_singleton _, ?_⟩
      intro a ha hb
      rw [List.mem_singleton] at hb
      subst hb
      exact hk ha

/-- Creating directories only adds the requested locations. -/
theorem fsLookup_mkdirs_other (ks : List (List String)) (fs : FS) (key : List String)
    (h : key ∉ ks) : fsLookup (mkdirs ks fs).2 key = fsLookup fs key := by
  induction ks generalizing fs with
  | nil => rfl
  | cons k ks ih =>
    have hk : k ≠ key := fun he => h (he ▸ List.mem_cons_self _ _)
    have hks : key ∉ ks := fun hm => h (List.mem_cons_of_mem _ hm)
    unfold mkdirs
    split
    · rfl
    · exact ih fs hks
    · rw [ih _ hks, fsLookup_append]
      cases fsLookup fs key with
      | none => simp [hk]
      | some m => rfl

theorem prefixes_isPrefix (d k : List String) (h : k ∈ prefixes d) : k <+: d := by
  induction d generalizing k with
  | nil => cases h
  | cons c cs ih =>
    unfold prefixes at h
    rcases List.mem_cons.1 h with rfl | hm
    · exact ⟨cs, rfl⟩
    · obtain ⟨k1, hk1, rfl⟩ := List.mem_map.1 hm
      obtain ⟨t, ht⟩ := ih k1 hk1
      exact ⟨t, by simp [ht]⟩

theorem kindAt_writeBytes (env : Env) (p : String) (b : Bytes) (w : World) (k : List String) :
    kindAt (writeBytes env p b w).fs k = kindAt w.fs k := by
  unfold writeBytes kindAt
  split
  · rename_i old hl
    simp only [fsLookup_fsPut]
    by_cases hk : env.resolve p = k
    · subst hk
      simp [hl, Node.isFile]
    · simp [hk]
  · rfl

theorem kindAt_copyloop (env : Env) (p : String) (cs : List Bytes) (w : World)
    (k : List String) : kindAt (copyloop env p cs w).fs k = kindAt w.fs k := by
  induction cs generalizing w with
  | nil => rfl
  | cons c cs ih =>
    unfold copyloop
    split
    · rw [ih, kindAt_writeBytes]
    · rfl

theorem kindAt_openWrite {env : Env} {p : String} {w w1 : World}
    (h : openWrite env p w = some w1) (k : List String) :
    kindAt w1.fs k = if env.resolve p = k then some true else kindAt w.fs k := by
  unfold kindAt
  rw [fsLookup_openWrite h]
  split <;> rfl

theorem openWrite_isSome {env : Env} {p : String} {w : World}
    (hwd : env.writeDenied p = false) (hk : kindAt w.fs (env.resolve p) ≠ some false) :
    ∃ w1, openWrite env p w = some w1 := by
  unfold openWrite
  simp only [hwd, Bool.false_eq_true, if_false]
  split
  · rename_i hl
    unfold kindAt at hk
    rw [hl] at hk
    exact absurd rfl hk
  · exact ⟨_, rfl⟩

theorem nodup_openWrite {env : Env} {p : String} {w w1 : World}
    (h : openWrite env p w = some w1) (hnd : (keys w.fs).Nodup) : (keys w1.fs).Nodup := by
  unfold openWrite at h
  split at h
  · simp at h
  · split at h
    · simp at h
    · simp only [Option.some.injEq] at h
      subst h
      exact nodup_fsPut _ _ _ hnd

theorem nodup_writeBytes (env : Env) (p : String) (b : Bytes) (w : World)
    (hnd : (keys w.fs).Nodup) : (keys (writeBytes env p b w).fs).Nodup := by
  unfold writeBytes
  split
  · exact nodup_fsPut _ _ _ hnd
  · exact hnd

theorem nodup_copyloop (env : Env) (p : String) (cs : List Bytes) (w : World)
    (hnd : (keys w.fs).Nodup) : (keys (copyloop env p cs w).fs).Nodup := by
  induction cs generalizing w with
  | nil => exact hnd
  | cons c cs ih =>
    unfold copyloop
    split
    · exact ih _ (nodup_writeBytes env p c w hnd)
    · exact hnd

theorem nodup_extractentry (env : Env) (np : String) (i : Nat) (e : ZipEntry) (w : World)
    (hnd : (keys w.fs).Nodup) : (keys (extractentry env np i e w).fs).Nodup := by
  unfold extractentry
  dsimp only
  split
  · exact hnd
  · split
    · split
      · exact hnd
      · split
        · exact hnd
        · rename_i h
          exact nodup_copyloop _ _ _ _ (nodup_openWrite h hnd)
    · exact hnd

theorem nodup_extractentries (env : Env) (np : String) (es : List ZipEntry) (i : Nat)
    (w : World) (hnd : (keys w.fs).Nodup) :
    (keys (extractentries env np i es w).fs).Nodup := by
  induction es generalizing i w with
  | nil => exact hnd
  | cons e es ih =>
    unfold extractentries
    exact ih _ _ (nodup_extractentry env np i e w hnd)

theorem nodup_filesBelow (w : World) (d : List String) (hnd : (keys w.fs).Nodup) :
    (filesBelow w d).Nodup := by
  unfold filesBelow
  exact List.Nodup.sublist (List.Sublist.map _ (List.filter_sublist _)) hnd

theorem mem_filesBelow (w : World) (d k : List String) (hnd : (keys w.fs).Nodup) :
    k ∈ filesBelow w d ↔ below d k = true ∧ kindAt w.fs k = some true := by
  unfold filesBelow kindAt
  simp only [List.mem_map, List.mem_filter, Bool.and_eq_true]
  constructor
  · rintro ⟨⟨k1, n⟩, ⟨hmem, hfile, hbelow⟩, rfl⟩
    refine ⟨hbelow, ?_⟩
    rw [fsLookup_of_mem hnd hmem]
    simp only [Option.map_some'] 
    exact congrArg some hfile
  · rintro ⟨hbelow, hk⟩
    cases hl : fsLookup w.fs k with
    | none => rw [hl] at hk; simp at hk
    | some n =>
      rw [hl] at hk
      simp only [Option.map_some', Option.some.injEq] at hk
      exact ⟨(k, n), ⟨fsLookup_mem hl, hk, hbelow⟩, rfl⟩

/-! ## C5: the files in the natives directory after `extractnatives` -/

theorem outputs_length (env : Env) (np : String) (entries : List ZipEntry) :
    (outputs env np entries).length = (entries.filter selected).length := by
  induction entries with
  | nil => rfl
  | cons e es ih =>
    unfold outputs at ih ⊢
    rcases e with ⟨_ | n, reads⟩
    · simpa [List.filterMap_cons, List.filter_cons, selected] using ih
    · by_cases hd : dllentry n = true
      · simpa [List.filterMap_cons, List.filter_cons, selected, hd] using ih
      · simpa [List.filterMap_cons, List.filter_cons, selected, hd] using ih

/-- A selected entry that can be opened and written turns its output location
into a regular file and changes the kind of no other location. -/
theorem kindAt_extractentry (env : Env) (np : String) (i : Nat) (e : ZipEntry) (w : World)
    (h : ∀ n, e.name = some n → dllentry n = true →
      e.reads.isSome = true ∧ env.writeDenied (pathAppend np (filename n)) = false ∧
      kindAt w.fs (env.resolve (pathAppend np (filename n))) ≠ some false)
    (k : List String) :
    kindAt (extractentry env np i e w).fs k
      = if k ∈ outputs env np [e] then some true else kindAt w.fs k := by
  unfold extractentry outputs
  rcases e with ⟨_ | n, reads⟩
  · simp [logconsole]
  · by_cases hd : dllentry n = true
    · obtain ⟨hr, hwd, hk⟩ := h n rfl hd
      obtain ⟨w1, hop⟩ := openWrite_isSome (w := w) hwd hk
      cases reads with
      | none => simp at hr
      | some chunks =>
        simp only [hd, if_true, hop, List.filterMap_cons, List.filterMap_nil,
          List.mem_singleton]
        rw [kindAt_copyloop, kindAt_openWrite hop]
        by_cases hkk : env.resolve (pathAppend np (filename n)) = k
        · rw [if_pos hkk, if_pos hkk.symm]
        · rw [if_neg hkk, if_neg (fun he => hkk he.symm)]
    · simp [hd]

theorem kindAt_extractentries (env : Env) (np : String) (es : List ZipEntry) (i : Nat)
    (w : World)
    (h : ∀ e ∈ es, ∀ n, e.name = some n → dllentry n = true →
      e.reads.isSome = true ∧ env.writeDenied (pathAppend np (filename n)) = false ∧
      kindAt w.fs (env.resolve (pathAppend np (filename n))) ≠ some false)
    (k : List String) :
    kindAt (extractentries env np i es w).fs k
      = if k ∈ outputs env np es then some true else kindAt w.fs k := by
  induction es generalizing i w with
  | nil => simp [extractentries, outputs]
  | cons e es ih =>
    have he := h e (List.mem_cons_self _ _)
    have hstep := kindAt_extractentry env np i e w he
    unfold extractentries
    rw [ih]
    · rw [hstep]
      have hout : outputs env np (e :: es) = outputs env np [e] ++ outputs env np es := by
        unfold outputs
        rw [← List.filterMap_append]
        rfl
      by_cases h1 : k ∈ outputs env np es
      · simp [hout, h1]
      · by_cases h2 : k ∈ outputs env np [e]
        · simp [hout, h1, h2]
        · simp [hout, h1, h2]
    · intro e1 he1 n hn hd
      obtain ⟨hr, hwd, hk⟩ := h e1 (List.mem_cons_of_mem _ he1) n hn hd
      refine ⟨hr, hwd, ?_⟩
      rw [hstep]
      split
      · simp
      · exact hk

theorem mem_outputs {env : Env} {np : String} {entries : List ZipEntry} {e : ZipEntry}
    {n : String} (he : e ∈ entries) (hn : e.name = some n) (hd : dllentry n = true) :
    env.resolve (pathAppend np (filename n)) ∈ outputs env np entries := by
  unfold outputs
  rw [List.mem_filterMap]
  refine ⟨e, he, ?_⟩
  simp only [hn, hd, if_true]

set_option maxRecDepth 100000 in
/-- C5 as stated fails: an archive with N = 2 entries, both ending in `.dll`
(M = 2), both openable and writable, extracted into a natives directory that
did not exist before, leaves one file there, `x.dll`, not two: the two
entries have the same base filename. -/
theorem same_basename_one_file :
    endsWithDll "a/x.dll" ∧ endsWithDll "b/x.dll" ∧
    filesBelow
      (extractnatives twoDllEnv (launcher.launcher "1.21")
        ".minecraft\\versions\\1.21\\1.21.jar" (initial demoDisk)).2
      (twoDllEnv.resolve ".minecraft\\natives\\1.21")
      = [["C:", "cc", ".minecraft", "natives", "1.21", "x.dll"]] :=
  ⟨⟨"a/x".data, rfl⟩, ⟨"b/x".data, rfl⟩, by decide⟩

/-- C5 (amended). Let the natives directory be creatable and hold nothing, let the
archive open, and let every selected entry (name longer than four characters
and ending in `.dll`) be openable with a creatable output file that lies in
the natives directory. Then `extractnatives` returns normally and the regular
files in the natives directory are exactly the locations
`nativespath / filename(entry)` of the selected entries: entries with the
same base filename share one file, so the number of files is the number of
distinct such locations, and it is the number of selected entries when these
locations are pairwise distinct. -/
theorem extractnatives_files (env : Env) (L : launcher) (jar : String) (w : World)
    (entries : List ZipEntry)
    (hwf : (keys w.fs).Nodup)
    (hdir : (create_directories env L.nativespath w).1 = .ok ())
    (hzip : zip_open env (create_directories env L.nativespath w).2 jar = some entries)
    (hempty : ∀ k, below (env.resolve L.nativespath) k = true → fsLookup w.fs k = none)
    (hin : ∀ k ∈ outputs env L.nativespath entries, below (env.resolve L.nativespath) k = true)
    (hopen : ∀ e ∈ entries, ∀ n, e.name = some n → dllentry n = true →
      e.reads.isSome = true ∧ env.writeDenied (pathAppend L.nativespath (filename n)) = false) :
    (extractnatives env L jar w).1 = .ok () ∧
    (∀ k, k ∈ filesBelow (extractnatives env L jar w).2 (env.resolve L.nativespath)
      ↔ k ∈ outputs env L.nativespath entries) ∧
    (filesBelow (extractnatives env L jar w).2 (env.resolve L.nativespath)).length
      = (outputs env L.nativespath entries).dedup.length ∧
    ((outputs env L.nativespath entries).Nodup →
      (filesBelow (extractnatives env L jar w).2 (env.resolve L.nativespath)).length
        = (entries.filter selected).length) := by
  obtain ⟨_, _, hcd⟩ := create_directories_ok hdir
  rw [hcd] at hzip
  simp only at hzip
  have hres : extractnatives env L jar w
      = (.ok (), logconsole ("[Extract] " ++ filename jar)
          (extractentries env L.nativespath 0 entries
            { w with fs := (mkdirs (prefixes (env.resolve L.nativespath)) w.fs).2 })) := by
    unfold extractnatives
    rw [hcd]
    simp only [hzip]
  -- nothing lies below the natives directory once it has been created
  have hnone : ∀ k, below (env.resolve L.nativespath) k = true →
      kindAt (mkdirs (prefixes (env.resolve L.nativespath)) w.fs).2 k = none := by
    intro k hk
    have hnot : k ∉ prefixes (env.resolve L.nativespath) := by
      intro hmem
      have hlen := (prefixes_isPrefix _ _ hmem).length_le
      unfold below at hk
      simp only [Bool.and_eq_true, decide_eq_true_eq] at hk
      omega
    unfold kindAt
    rw [fsLookup_mkdirs_other _ _ _ hnot, hempty k hk]
    rfl
  have hkind := kindAt_extractentries env L.nativespath entries 0
    { w with fs := (mkdirs (prefixes (env.resolve L.nativespath)) w.fs).2 }
    (by
      intro e he n hn hd
      obtain ⟨hr, hwd⟩ := hopen e he n hn hd
      refine ⟨hr, hwd, ?_⟩
      have hb := hin _ (@mem_outputs env L.nativespath _ _ _ he hn hd)
      have := hnone _ hb
      simp only at this ⊢
      rw [this]
      simp)
  have hnd : (keys (extractnatives env L jar w).2.fs).Nodup := by
    rw [hres]
    exact nodup_extractentries _ _ _ _ _ (nodup_mkdirs _ _ hwf)
  have hmem : ∀ k, k ∈ filesBelow (extractnatives env L jar w).2 (env.resolve L.nativespath)
      ↔ k ∈ outputs env L.nativespath entries := by
    intro k
    rw [mem_filesBelow _ _ _ hnd]
    have hk : kindAt (extractnatives env L jar w).2.fs k
        = if k ∈ outputs env L.nativespath entries then some true
          else kindAt (mkdirs (prefixes (env.resolve L.nativespath)) w.fs).2 k := by
      rw [hres]
      exact hkind k
    rw [hk]
    constructor
    · rintro ⟨hb, hq⟩
      by_contra hno
      rw [if_neg hno, hnone k hb] at hq
      cases hq
    · intro ho
      exact ⟨hin k ho, by rw [if_pos ho]⟩
  have hlen : (filesBelow (extractnatives env L jar w).2 (env.resolve L.nativespath)).length
      = (outputs env L.nativespath entries).dedup.length := by
    refine List.Perm.length_eq ?_
    rw [List.perm_ext_iff_of_nodup (nodup_filesBelow _ _ hnd) (List.nodup_dedup _)]
    intro k
    rw [hmem, List.mem_dedup]
  refine ⟨by rw [hres], hmem, hlen, ?_⟩
  intro hnodup
  rw [hlen, List.dedup_eq_self.2 hnodup, outputs_length]

set_option maxRecDepth 100000 in
/-- C5 (amended) on the demo installation: the archive holds `lib/win64/foo.dll` and
`META-INF/MANIFEST.MF`; afterwards the natives directory holds as many files
as there are selected entries (one, the flattened `foo.dll`). -/
theorem extractnatives_files_witness :
    (extractnatives demoEnv (launcher.launcher "1.21")
        ".minecraft\\versions\\1.21\\1.21.jar" (initial demoDisk)).1 = .ok () ∧
    filesBelow (extractnatives demoEnv (launcher.launcher "1.21")
        ".minecraft\\versions\\1.21\\1.21.jar" (initial demoDisk)).2
        (demoEnv.resolve (launcher.launcher "1.21").nativespath)
      = [["C:", "cc", ".minecraft", "natives", "1.21", "foo.dll"]] ∧
    (filesBelow (extractnatives demoEnv (launcher.launcher "1.21")
        ".minecraft\\versions\\1.21\\1.21.jar" (initial demoDisk)).2
        (demoEnv.resolve (launcher.launcher "1.21").nativespath)).length
      = (demoArchive.filter selected).length :=
  have h := extractnatives_files demoEnv (launcher.launcher "1.21")
    ".minecraft\\versions\\1.21\\1.21.jar" (initial demoDisk) demoArchive
    (by decide) rfl rfl
    (by
      intro k hk
      rw [fsLookup_eq_none_iff]
      intro hmem
      simp only [initial, keys, demoDisk, List.map_cons, List.map_nil, List.mem_cons,
        List.mem_singleton, List.not_mem_nil, or_false] at hmem
      rcases hmem with rfl | rfl | rfl <;> revert hk <;> decide)
    (by decide)
    (by
      intro e he n hn hd
      simp only [demoArchive, List.mem_cons, List.mem_singleton, List.not_mem_nil,
        or_false] at he
      rcases he with rfl | rfl
      · simp only [Option.some.injEq] at hn
        subst hn
        exact ⟨rfl, rfl⟩
      · simp only [Option.some.injEq] at hn
        subst hn
        revert hd
        decide)
  ⟨h.1, by decide, h.2.2.2 (by decide)⟩

/-! ## C6: the classpath -/

theorem splitAt_append (d : Char) (a b : List Char) (ha : d ∉ a) :
    splitAt d (a ++ d :: b) = a :: splitAt d b := by
  induction a with
  | nil => simp [splitAt]
  | cons c cs ih =>
    have hc : c ≠ d := fun h => ha (h ▸ List.mem_cons_self _ _)
    have hcs : d ∉ cs := fun h => ha (List.mem_cons_of_mem _ h)
    have ih2 := ih hcs
    have hstep : splitAt d (c :: (cs ++ d :: b))
        = if c = d then [] :: splitAt d (cs ++ d :: b)
          else
            match splitAt d (cs ++ d :: b) with
            | [] => [[c]]
            | p :: ps => (c :: p) :: ps := rfl
    show splitAt d (c :: (cs ++ d :: b)) = (c :: cs) :: splitAt d b
    rw [hstep, if_neg hc, ih2]

theorem splitAt_none (d : Char) (a : List Char) (ha : d ∉ a) : splitAt d a = [a] := by
  induction a with
  | nil => rfl
  | cons c cs ih =>
    have hc : c ≠ d := fun h => ha (h ▸ List.mem_cons_self _ _)
    have hcs : d ∉ cs := fun h => ha (List.mem_cons_of_mem _ h)
    simp only [splitAt, hc, if_false, ih hcs]

/-- Splitting the joined string at `;` gives back the entries: the loop puts
one delimiter between two consecutive entries and none anywhere else. -/
theorem splitAt_joinjars (parts : List String) (hne : parts ≠ [])
    (hsemi : ∀ p ∈ parts, ';' ∉ p.data) :
    splitAt ';' (joinjars parts).data = parts.map String.data := by
  induction parts with
  | nil => exact absurd rfl hne
  | cons j rest ih =>
    cases rest with
    | nil =>
      simp only [joinjars, List.map_cons, List.map_nil]
      exact splitAt_none _ _ (hsemi j (List.mem_cons_self _ _))
    | cons j2 rest2 =>
      have h1 : (joinjars (j :: j2 :: rest2)).data
          = j.data ++ ';' :: (joinjars (j2 :: rest2)).data := by
        simp only [joinjars, String.data_append]
        simp
      rw [h1, splitAt_append _ _ _ (hsemi j (List.mem_cons_self _ _)),
        ih (List.cons_ne_nil _ _) (fun p hp => hsemi p (List.mem_cons_of_mem _ hp))]
      rfl

set_option maxRecDepth 100000 in
/-- C6 as stated fails: with `a.jar` and `b.jar` in the libraries directory and
the main archive present, the classpath lists the two libraries by their
paths relative to the working directory (`libspath` is never made absolute);
the absolute path of `a.jar` does not occur in the result. -/
theorem classpath_library_paths_relative :
    getclasspath demoEnv (launcher.launcher "1.21") (initial libsDisk)
      = (.ok (".minecraft\\versions\\1.21\\libraries\\a.jar;" ++
              ".minecraft\\versions\\1.21\\libraries\\b.jar;" ++
              "C:\\cc\\.minecraft\\versions\\1.21\\1.21.jar"), initial libsDisk) ∧
    hasSubstr (demoEnv.absolute ".minecraft\\versions\\1.21\\libraries\\a.jar").data
      (".minecraft\\versions\\1.21\\libraries\\a.jar;" ++
        ".minecraft\\versions\\1.21\\libraries\\b.jar;" ++
        "C:\\cc\\.minecraft\\versions\\1.21\\1.21.jar").data = false :=
  ⟨by rfl, by decide⟩

/-- C6 (amended). Let the libraries directory be enumerable with entries `entries`.
The library paths are the paths of the regular files with extension `.jar`
among them, as the iteration yields them (`libspath`, a path relative to the
working directory, extended by the names below it), in enumeration order.
* When the main archive exists, `getclasspath` returns these paths followed by
  the absolute main archive path, logs nothing, and splitting the result at
  `;` gives back exactly this list when no path contains `;`.
* When the main archive does not exist, the result is made of the library
  paths only, and the line "[Error] Missing version JAR: <main archive>" is
  logged. -/
theorem getclasspath_composition (env : Env) (L : launcher) (w : World)
    (entries : List DirEntry) (hlist : listing env w L.libspath = some entries) :
    (fsExists env w (mainjarpath env L) = true →
      getclasspath env L w
        = (.ok (joinjars (libraryjars entries ++ [mainjarpath env L])), w) ∧
      ((∀ p ∈ libraryjars entries ++ [mainjarpath env L], ';' ∉ p.data) →
        ∀ cp, (getclasspath env L w).1 = .ok cp →
          splitAt ';' cp.data = (libraryjars entries ++ [mainjarpath env L]).map String.data)) ∧
    (fsExists env w (mainjarpath env L) = false →
      (getclasspath env L w).1 = .ok (joinjars (libraryjars entries)) ∧
      ("[Error] Missing version JAR: " ++ mainjarpath env L) ∈ (getclasspath env L w).2.log ∧
      (libraryjars entries ≠ [] → (∀ p ∈ libraryjars entries, ';' ∉ p.data) →
        ∀ cp, (getclasspath env L w).1 = .ok cp →
          splitAt ';' cp.data = (libraryjars entries).map String.data)) := by
  constructor
  · intro hmain
    have hcp : getclasspath env L w
        = (.ok (joinjars (libraryjars entries ++ [mainjarpath env L])), w) := by
      unfold getclasspath
      simp only [hlist, hmain, if_true]
    refine ⟨hcp, ?_⟩
    intro hsemi cp hcpeq
    rw [hcp] at hcpeq
    simp only [Except.ok.injEq] at hcpeq
    rw [← hcpeq]
    exact splitAt_joinjars _ (by simp) hsemi
  · intro hmain
    have hcp : (getclasspath env L w).1 = .ok (joinjars (libraryjars entries)) := by
      unfold getclasspath
      simp only [hlist, hmain, Bool.false_eq_true, if_false]
    refine ⟨hcp, ?_, ?_⟩
    · unfold getclasspath
      simp only [hlist, hmain, Bool.false_eq_true, if_false]
      split <;> simp [logconsole]
    · intro hne hsemi cp hcpeq
      rw [hcp] at hcpeq
      simp only [Except.ok.injEq] at hcpeq
      rw [← hcpeq]
      exact splitAt_joinjars _ hne hsemi

set_option maxRecDepth 100000 in
/-- C6 (amended) on the demo installation with `a.jar` and `b.jar`: the classpath is
the two library paths followed by the main archive path, and splitting it at
`;` gives back these three paths. -/
theorem getclasspath_composition_witness :
    getclasspath demoEnv (launcher.launcher "1.21") (initial libsDisk)
      = (.ok (joinjars [".minecraft\\versions\\1.21\\libraries\\a.jar",
                        ".minecraft\\versions\\1.21\\libraries\\b.jar",
                        "C:\\cc\\.minecraft\\versions\\1.21\\1.21.jar"]), initial libsDisk) ∧
    splitAt ';' (joinjars [".minecraft\\versions\\1.21\\libraries\\a.jar",
                        ".minecraft\\versions\\1.21\\libraries\\b.jar",
                        "C:\\cc\\.minecraft\\versions\\1.21\\1.21.jar"]).data
      = [".minecraft\\versions\\1.21\\libraries\\a.jar".data,
         ".minecraft\\versions\\1.21\\libraries\\b.jar".data,
         "C:\\cc\\.minecraft\\versions\\1.21\\1.21.jar".data] :=
  have h := (getclasspath_composition demoEnv (launcher.launcher "1.21") (initial libsDisk)
    [⟨".minecraft\\versions\\1.21\\libraries\\a.jar", true⟩,
     ⟨".minecraft\\versions\\1.21\\libraries\\b.jar", true⟩] (by decide)).1 (by decide)
  ⟨h.1, h.2 (by decide) _ (congrArg Prod.fst h.1)⟩

/-! ## C7: the launch command -/

set_option maxRecDepth 100000 in
/-- C7 as stated fails: the manifest of the demo installation opens and has a
non-empty `mainClass`, but without a libraries directory on disk the
directory iteration in `getclasspath` throws, and `buildlaunchcommand` raises
instead of returning a string. -/
theorem buildlaunchcommand_raises_without_libraries :
    readFile demoEnv (initial demoDisk) (launcher.launcher "1.21").jsonpath = some [123] ∧
    demoEnv.jsonParse [123] = .ok demoManifest ∧
    demoManifest.get "mainClass" = .ok (Json.str "net.minecraft.client.main.Main") ∧
    (buildlaunchcommand demoEnv (launcher.launcher "1.21") "alice" (initial demoDisk)).1
      = .error "recursive_directory_iterator: .minecraft\\versions\\1.21\\libraries" :=
  ⟨by decide, rfl, rfl, by rfl⟩

theorem commandstring_ne_empty (L : launcher) (username mainclass assetindex classpath
    nativesdir versiongamedir versionassetsdir : String) :
    commandstring L username mainclass assetindex classpath nativesdir versiongamedir
      versionassetsdir ≠ "" := by
  intro h
  have hd := congrArg String.data h
  simp only [commandstring, String.data_append] at hd
  have hl := congrArg List.length hd
  simp only [List.length_append, List.length_cons, List.length_nil] at hl
  omega

/-- C7 (amended). Let the manifest open and parse, let `mainClass` be a non-empty
string and the asset index expression have the value `assetindex` (`assets`
absent or a string), let the libraries directory be enumerable so that
`getclasspath` returns `classpath`, and let the version and assets
directories be creatable. Then for every username `buildlaunchcommand`
returns a non-empty string that is exactly the listed pieces in the listed
order, with username and version id inserted as they are. Nothing is
assumed about the main archive: the string is produced also when it is
missing. -/
theorem buildlaunchcommand_format (env : Env) (L : launcher) (username : String) (w : World)
    (bytes : Bytes) (j : Json) (mainclass assetindex classpath : String)
    (hopen : readFile env w L.jsonpath = some bytes)
    (hparse : env.jsonParse bytes = .ok j)
    (hmain : stringfield j "mainClass" "" = .ok mainclass)
    (hne : mainclass ≠ "")
    (hassets : stringfield j "assets" L.versionid = .ok assetindex)
    (hcp : (getclasspath env L w).1 = .ok classpath)
    (hd1 : (create_directories env (env.absolute (pathAppend ".minecraft/versions" L.versionid))
      (getclasspath env L w).2).1 = .ok ())
    (hd2 : (create_directories env
      (pathAppend (env.absolute (pathAppend ".minecraft/versions" L.versionid)) "assets")
      (create_directories env (env.absolute (pathAppend ".minecraft/versions" L.versionid))
        (getclasspath env L w).2).2).1 = .ok ()) :
    (buildlaunchcommand env L username w).1
      = .ok ("-Xmx2G -Xms1G " ++
          ("-Djava.library.path=\"" ++ env.absolute L.nativespath ++ "\" ") ++
          ("-cp \"" ++ classpath ++ "\" ") ++
          (mainclass ++ " ") ++
          ("--username " ++ username ++ " ") ++
          ("--version " ++ L.versionid ++ " ") ++
          ("--gameDir \"" ++ env.absolute (pathAppend ".minecraft/versions" L.versionid)
            ++ "\" ") ++
          ("--assetsDir \"" ++
            pathAppend (env.absolute (pathAppend ".minecraft/versions" L.versionid)) "assets"
            ++ "\" ") ++
          ("--assetIndex " ++ assetindex ++ " ") ++
          "--uuid 00000000-0000-0000-0000-000000000000 " ++
          "--accessToken 0 " ++
          "--userType mojang") ∧
    ∀ cmd, (buildlaunchcommand env L username w).1 = .ok cmd → cmd ≠ "" := by
  have hres : (buildlaunchcommand env L username w).1
      = .ok (commandstring L username mainclass assetindex classpath (env.absolute L.nativespath)
          (env.absolute (pathAppend ".minecraft/versions" L.versionid))
          (pathAppend (env.absolute (pathAppend ".minecraft/versions" L.versionid)) "assets")) := by
    unfold buildlaunchcommand
    simp only [hopen, hparse, hmain, hne, if_false, hassets]
    rcases hg : getclasspath env L w with ⟨rc, w1⟩
    rw [hg] at hcp hd1 hd2
    simp only at hcp hd1 hd2
    subst hcp
    simp only
    rcases hc1 : create_directories env
      (env.absolute (pathAppend ".minecraft/versions" L.versionid)) w1 with ⟨r1, w2⟩
    rw [hc1] at hd1 hd2
    simp only at hd1 hd2
    subst hd1
    simp only
    rcases hc2 : create_directories env
      (pathAppend (env.absolute (pathAppend ".minecraft/versions" L.versionid)) "assets") w2
      with ⟨r2, w3⟩
    rw [hc2] at hd2
    simp only at hd2
    subst hd2
    rfl
  refine ⟨hres, ?_⟩
  intro cmd hcmd
  rw [hres] at hcmd
  simp only [Except.ok.injEq] at hcmd
  rw [← hcmd]
  exact commandstring_ne_empty _ _ _ _ _ _ _ _

set_option maxRecDepth 100000 in
/-- C7 (amended) on an installation whose main archive is missing: the command is
produced all the same, with the one library as classpath. -/
theorem buildlaunchcommand_format_witness :
    (buildlaunchcommand demoEnv (launcher.launcher "1.21") "alice" (initial noMainJarDisk)).1
      = .ok ("-Xmx2G -Xms1G -Djava.library.path=\"C:\\cc\\.minecraft\\natives\\1.21\" " ++
          "-cp \".minecraft\\versions\\1.21\\libraries\\a.jar\" " ++
          "net.minecraft.client.main.Main --username alice --version 1.21 " ++
          "--gameDir \"C:\\cc\\.minecraft/versions\\1.21\" " ++
          "--assetsDir \"C:\\cc\\.minecraft/versions\\1.21\\assets\" --assetIndex 1.21 " ++
          "--uuid 00000000-0000-0000-0000-000000000000 --accessToken 0 --userType mojang") :=
  (buildlaunchcommand_format demoEnv (launcher.launcher "1.21") "alice" (initial noMainJarDisk)
    [123] demoManifest "net.minecraft.client.main.Main" "1.21"
    ".minecraft\\versions\\1.21\\libraries\\a.jar"
    (by decide) rfl rfl (by decide) rfl (by rfl) (by rfl) (by rfl)).1

/-! ## C8: the download pass of `setuplauncher` -/

theorem PassEffect_refl (w : World) : PassEffect w w [] :=
  ⟨[], [], by simp, by simp, rfl, rfl⟩

theorem PassEffect_trans {a b c : World} {t1 t2 : List (String × String)}
    (h1 : PassEffect a b t1) (h2 : PassEffect b c t2) : PassEffect a c (t1 ++ t2) := by
  obtain ⟨c1, l1, hc1, hl1, ht1, he1⟩ := h1
  obtain ⟨c2, l2, hc2, hl2, ht2, he2⟩ := h2
  refine ⟨c1 ++ c2, l1 ++ l2, ?_, ?_, ?_, ?_⟩
  · rw [hc2, hc1, List.append_assoc]
  · rw [hl2, hl1, List.append_assoc]
  · rw [List.map_append, ht1, ht2]
  · rw [List.filter_append, List.filter_append, List.length_append, List.length_append,
      he1, he2]

/-- The log lines of `downloadfiles` itself are no download error lines, and
the body records no call. -/
theorem downloadfilesBody_log (env : Env) (url out : String) (w : World) :
    ∃ extra, (downloadfilesBody env url out w).2.log = w.log ++ extra ∧
      extra.filter isDownloadError = [] ∧
      (downloadfilesBody env url out w).2.calls = w.calls := by
  have hfr := create_directories_frame env (parent_path out) w
  unfold downloadfilesBody
  rcases hcd : create_directories env (parent_path out) w with ⟨_ | _, w0⟩
  · rw [hcd] at hfr
    exact ⟨[], by simpa using hfr.2.1, rfl, hfr.2.2⟩
  · rw [hcd] at hfr
    obtain ⟨-, hlog, hcalls⟩ := hfr
    simp only at hlog hcalls ⊢
    have hskip : isDownloadError ("[Skip] " ++ out) = false := by rfl
    have hdl : isDownloadError ("[Download] " ++ url) = false := by rfl
    by_cases hex : fsExists env w0 out = true
    · simp only [hex, if_true]
      refine ⟨["[Skip] " ++ out], ?_, ?_, hcalls⟩
      · simp [logconsole, hlog]
      · simp [hskip]
    · simp only [hex, Bool.false_eq_true, if_false]
      have hfilter : List.filter isDownloadError ["[Download] " ++ url] = [] := by
        simp [hdl]
      rcases hop : openWrite env out (logconsole ("[Download] " ++ url) w0) with _ | w3
      · exact ⟨["[Download] " ++ url], by simp [logconsole, hlog], hfilter, hcalls⟩
      · have h3 : w3.log = w.log ++ ["[Download] " ++ url] ∧ w3.calls = w.calls := by
          unfold openWrite at hop
          split at hop
          · simp at hop
          · split at hop
            · simp at hop
            · simp only [Option.some.injEq] at hop
              rw [← hop]
              exact ⟨by simp [logconsole, hlog], hcalls⟩
        simp only
        by_cases hci : env.curlInitFails url = true
        · simp only [hci, if_true]
          exact ⟨["[Download] " ++ url], h3.1, hfilter, h3.2⟩
        · simp only [hci, Bool.false_eq_true, if_false]
          have h4 : (writeBytes env out (env.curlPerform url).body
              { w3 with transfers := w3.transfers ++ [url] }).log
                = w.log ++ ["[Download] " ++ url] ∧
              (writeBytes env out (env.curlPerform url).body
              { w3 with transfers := w3.transfers ++ [url] }).calls = w.calls := by
            unfold writeBytes
            split <;> exact h3
          split <;> exact ⟨["[Download] " ++ url], h4.1, hfilter, h4.2⟩

/-- One call of `downloadfiles` from the loop, with the handler around it:
one call is recorded, and one error line is logged exactly when it raised. -/
theorem PassEffect_download (env : Env) (url out : String) (w : World) :
    PassEffect w
      (match downloadfiles env url out w with
       | (.error e, w1) => logconsole ("[Error] Downloading failed: " ++ e) w1
       | (.ok _, w1) => w1)
      [(url, out)] := by
  obtain ⟨extra, hlog, hfil, hcalls⟩ := downloadfilesBody_log env url out w
  unfold downloadfiles
  rcases hb : downloadfilesBody env url out w with ⟨_ | _, w1⟩
  · rename_i e
    rw [hb] at hlog hcalls
    simp only at hlog hcalls ⊢
    have herr : isDownloadError ("[Error] Downloading failed: " ++ e) = true := by
      simp [isDownloadError]
    refine ⟨[⟨url, out, true⟩], extra ++ ["[Error] Downloading failed: " ++ e], ?_, ?_, rfl, ?_⟩
    · simp [logconsole, hcalls]
    · simp [logconsole, hlog]
    · simp [List.filter_append, hfil, herr]
  · rw [hb] at hlog hcalls
    simp only at hlog hcalls ⊢
    refine ⟨[⟨url, out, false⟩], extra, ?_, ?_, rfl, ?_⟩
    · simp [hcalls]
    · simp [hlog]
    · simp [hfil]

theorem Json.get_of_contains {j : Json} {key : String} (h : j.contains key = true) :
    ∃ v, j.get key = .ok v := by
  unfold Json.contains at h
  unfold Json.get
  split at h
  · rename_i ms
    cases hl : Json.lookup ms key with
    | none => rw [hl] at h; simp at h
    | some v => exact ⟨v, rfl⟩
  · simp at h

/-- One iteration of the download loop on a typed record: no exception, and
the call of `downloadfiles` the record asks for, if any. -/
theorem downloadstep_effect (env : Env) (L : launcher) (lib : Json) (w : World)
    (ht : artifactTyped lib) :
    (downloadstep env L lib w).1 = .ok () ∧
      PassEffect w (downloadstep env L lib w).2 (dltarget L lib).toList := by
  unfold artifactTyped at ht
  unfold downloadstep dltarget
  by_cases hc : lib.contains "downloads" = true
  · obtain ⟨downloads, hget⟩ := Json.get_of_contains hc
    by_cases hc2 : downloads.contains "artifact" = true
    · obtain ⟨artifact, hget2⟩ := Json.get_of_contains hc2
      have hart : artifactOf lib = some artifact := by
        unfold artifactOf
        simp only [hc, if_true, hget, hc2, hget2]
      obtain ⟨⟨u, hu⟩, ⟨p, hp⟩⟩ := ht artifact hart
      simp only [hc, Bool.not_true, Bool.false_eq_true, if_false, hget, hc2, hget2, hart, hu, hp]
      by_cases hempty : u = "" ∨ p = ""
      · simp only [hempty, if_true, Option.toList]
        refine ⟨trivial, [], ["[Warn] Skip library (missing URL or path)."],
          (List.append_nil _).symm, rfl, rfl, ?_⟩
        have hwarn : isDownloadError "[Warn] Skip library (missing URL or path)." = false := by
          rfl
        simp [hwarn]
      · simp only [hempty, if_false, Option.toList]
        have hpe := PassEffect_download env u (pathAppend L.libspath (make_preferred p)) w
        rcases hdl : downloadfiles env u (pathAppend L.libspath (make_preferred p)) w
          with ⟨_ | _, w1⟩
        · rw [hdl] at hpe
          exact ⟨rfl, hpe⟩
        · rw [hdl] at hpe
          exact ⟨rfl, hpe⟩
    · have hart : artifactOf lib = none := by
        unfold artifactOf
        simp only [hc, if_true, hget, hc2, Bool.false_eq_true, if_false]
      simp only [hc, Bool.not_true, Bool.false_eq_true, if_false, hget, hc2, hart]
      exact ⟨rfl, PassEffect_refl w⟩
  · have hart : artifactOf lib = none := by
      unfold artifactOf
      simp only [hc, Bool.false_eq_true, if_false]
    simp only [hc, hart]
    exact ⟨rfl, PassEffect_refl w⟩

theorem forEach_downloadstep_effect (env : Env) (L : launcher) (libs : List Json) (w : World)
    (ht : ∀ lib ∈ libs, artifactTyped lib) :
    (forEach (downloadstep env L) libs w).1 = .ok () ∧
      PassEffect w (forEach (downloadstep env L) libs w).2 (libs.filterMap (dltarget L)) := by
  induction libs generalizing w with
  | nil => exact ⟨rfl, PassEffect_refl w⟩
  | cons lib rest ih =>
    obtain ⟨hok, heff⟩ := downloadstep_effect env L lib w (ht lib (List.mem_cons_self _ _))
    have hfm : (lib :: rest).filterMap (dltarget L)
        = (dltarget L lib).toList ++ rest.filterMap (dltarget L) := by
      rw [List.filterMap_cons]
      cases dltarget L lib <;> rfl
    unfold forEach
    rcases hs : downloadstep env L lib w with ⟨_ | _, w1⟩
    · rw [hs] at hok
      simp at hok
    · rw [hs] at heff
      obtain ⟨hok2, heff2⟩ := ih w1 (fun l hl => ht l (List.mem_cons_of_mem _ hl))
      simp only
      rw [hfm]
      exact ⟨hok2, PassEffect_trans heff heff2⟩

/-- C8. For every libraries list whose records are typed as the manifest format
says, and for every environment (every choice of which downloads fail), the
download pass of `setuplauncher` returns normally (no exception escapes it);
it calls `downloadfiles` exactly once, in manifest order, for each record that
has `downloads.artifact` with a non-empty url and path, with that url and the
path below the libraries directory, whether or not earlier calls raised; and
among the lines it logs there is one "[Error] Downloading failed: ..." line
for each call that raised. -/
theorem downloadpass_continues (env : Env) (L : launcher) (libs : List Json) (w : World)
    (ht : ∀ lib ∈ libs, artifactTyped lib) :
    (forEach (downloadstep env L) libs w).1 = .ok () ∧
    (forEach (downloadstep env L) libs w).2.calls.map (fun c => (c.url, c.outputpath))
      = w.calls.map (fun c => (c.url, c.outputpath)) ++ libs.filterMap (dltarget L) ∧
    w.log <+: (forEach (downloadstep env L) libs w).2.log ∧
    w.calls <+: (forEach (downloadstep env L) libs w).2.calls ∧
    (((forEach (downloadstep env L) libs w).2.log.drop w.log.length).filter
        isDownloadError).length
      = (((forEach (downloadstep env L) libs w).2.calls.drop w.calls.length).filter
          fun c => c.raised).length := by
  obtain ⟨hok, nc, nl, hc, hl, htg, herr⟩ := forEach_downloadstep_effect env L libs w ht
  refine ⟨hok, ?_, ⟨nl, hl.symm⟩, ⟨nc, hc.symm⟩, ?_⟩
  · rw [hc, List.map_append, htg]
  · rw [hc, hl, List.drop_left, List.drop_left]
    exact herr

theorem artifactTyped_of {lib a : Json} {u p : String} (h1 : artifactOf lib = some a)
    (h2 : a.value "url" "" = .ok u) (h3 : a.value "path" "" = .ok p) : artifactTyped lib := by
  intro a1 ha1
  rw [h1] at ha1
  simp only [Option.some.injEq] at ha1
  subst ha1
  exact ⟨⟨u, h2⟩, ⟨p, h3⟩⟩

theorem demoLibraries_typed : ∀ lib ∈ demoLibraries, artifactTyped lib := by
  intro lib hlib
  simp only [demoLibraries, List.mem_cons, List.mem_singleton, List.not_mem_nil, or_false]
    at hlib
  rcases hlib with rfl | rfl
  · exact artifactTyped_of (u := "https://libraries.minecraft.net/brigadier.jar")
      (p := "com/mojang/brigadier.jar") rfl rfl rfl
  · exact artifactTyped_of (u := "https://libraries.minecraft.net/lwjgl-natives.jar")
      (p := "org/lwjgl/lwjgl-natives.jar") rfl rfl rfl

set_option maxRecDepth 100000 in
/-- C8 on the demo installation when the first transfer fails: both records are
downloaded to, in manifest order, and the pass returns normally with one
error line for the one call that raised. -/
theorem downloadpass_continues_witness :
    (forEach (downloadstep failingEnv (launcher.launcher "1.21")) demoLibraries
      (initial demoDisk)).1 = .ok () ∧
    (forEach (downloadstep failingEnv (launcher.launcher "1.21")) demoLibraries
      (initial demoDisk)).2.calls.map (fun c => (c.url, c.outputpath))
      = [("https://libraries.minecraft.net/brigadier.jar",
          ".minecraft\\versions\\1.21\\libraries\\com\\mojang\\brigadier.jar"),
         ("https://libraries.minecraft.net/lwjgl-natives.jar",
          ".minecraft\\versions\\1.21\\libraries\\org\\lwjgl\\lwjgl-natives.jar")] ∧
    (((forEach (downloadstep failingEnv (launcher.launcher "1.21")) demoLibraries
      (initial demoDisk)).2.log.drop (initial demoDisk).log.length).filter
        isDownloadError).length = 1 :=
  have h := downloadpass_continues failingEnv (launcher.launcher "1.21") demoLibraries
    (initial demoDisk) demoLibraries_typed
  ⟨h.1, h.2.1, h.2.2.2.2⟩

/-! ## C9: a native archive that cannot be opened -/

set_option maxRecDepth 100000 in
/-- C9 (the code departs from the claim). On the demo installation with a native
archive that is on disk but cannot be opened, `extractnatives` raises
"Failed to open jar: ...", nothing in the extraction loop of `setuplauncher`
catches it, and the exception leaves `setuplauncher` and `launchprocess`:
the failure is not logged, `buildlaunchcommand` is never reached (the log
holds the two download lines only), and the launch thread ends the program
(`step` has no successor state). -/
theorem unopenable_native_archive_aborts_launch :
    (setuplauncher corruptEnv (launcher.launcher "1.21") (initial demoDisk)).1
      = .error ("Failed to open jar: " ++
          "C:\\cc\\.minecraft\\versions\\1.21\\libraries\\org\\lwjgl\\lwjgl-natives.jar") ∧
    (launchprocess corruptEnv (launcher.launcher "1.21") "alice" (initial demoDisk)).1
      = .error ("Failed to open jar: " ++
          "C:\\cc\\.minecraft\\versions\\1.21\\libraries\\org\\lwjgl\\lwjgl-natives.jar") ∧
    (launchprocess corruptEnv (launcher.launcher "1.21") "alice" (initial demoDisk)).2.log
      = ["[Download] https://libraries.minecraft.net/brigadier.jar",
         "[Download] https://libraries.minecraft.net/lwjgl-natives.jar"] ∧
    step (Event.launch corruptEnv "1.21" "alice") (initial demoDisk) = none :=
  ⟨by rfl, by rfl, by decide, by decide⟩

/-! ## C10: records without a download section or without an artifact -/

/-- A loop iteration that does nothing can be left out of the loop. -/
theorem forEach_skip (body : Json → World → Except String Unit × World) (r : Json)
    (hr : ∀ w, body r w = (.ok (), w)) (pre post : List Json) (w : World) :
    forEach body (pre ++ r :: post) w = forEach body (pre ++ post) w := by
  induction pre generalizing w with
  | nil =>
    simp only [List.nil_append]
    rw [forEach, hr w]
  | cons a pre ih =>
    simp only [List.cons_append]
    unfold forEach
    rcases body a w with ⟨_ | _, w1⟩
    · rfl
    · exact ih w1

/-- C10. Let a dependency record have no `downloads` section, or a `downloads`
section without `artifact`, and let its `name`, when present, be a string (as
the manifest format says). Then `setuplauncher` does nothing for it: in both
loops the record leaves the state untouched (no download, no extraction, no
log line) and raises nothing, and the two loops over a libraries list that
contains the record give the result they give over the list without it. -/
theorem record_without_artifact_ignored (env : Env) (L : launcher) (r : Json)
    (pre post : List Json) (w : World)
    (hr : r.contains "downloads" = false ∨
      ∃ d, r.get "downloads" = .ok d ∧ d.contains "artifact" = false)
    (hname : r.contains "name" = false ∨ ∃ n, r.get "name" = .ok (Json.str n)) :
    downloadstep env L r w = (.ok (), w) ∧
    extractstep env L r w = (.ok (), w) ∧
    setuplibraries env L [r] w = (.ok (), w) ∧
    setuplibraries env L (pre ++ r :: post) w = setuplibraries env L (pre ++ post) w := by
  have hd : ∀ w1, downloadstep env L r w1 = (.ok (), w1) := by
    intro w1
    unfold downloadstep
    rcases hr with h | ⟨d, hget, hart⟩
    · simp only [h, Bool.not_false, if_true]
    · by_cases hc : r.contains "downloads" = true
      · simp only [hc, Bool.not_true, Bool.false_eq_true, if_false, hget, hart,
          Bool.not_false, if_true]
      · simp only [hc, Bool.not_false, if_true]
  have he : ∀ w1, extractstep env L r w1 = (.ok (), w1) := by
    intro w1
    unfold extractstep
    rcases hname with h | ⟨n, hn⟩
    · simp only [h, Bool.not_false, if_true]
    · by_cases hcn : r.contains "name" = true
      · simp only [hcn, Bool.not_true, Bool.false_eq_true, if_false, hn, Json.getString]
        split
        · rcases hr with h | ⟨d, hget, hart⟩
          · simp only [h, Bool.not_false, if_true]
          · by_cases hc : r.contains "downloads" = true
            · simp only [hc, Bool.not_true, Bool.false_eq_true, if_false, hget, hart,
                Bool.not_false, if_true]
            · simp [hc]
        · rfl
      · simp [hcn]
  refine ⟨hd w, he w, ?_, ?_⟩
  · unfold setuplibraries
    simp only [forEach, hd, he]
  · unfold setuplibraries
    rw [forEach_skip _ r hd pre post w]
    rcases forEach (downloadstep env L) (pre ++ post) w with ⟨_ | _, w1⟩
    · rfl
    · exact forEach_skip _ r he pre post w1

/-- C10 on the demo installation: a record without `artifact` placed between the two
records of the manifest changes nothing. -/
theorem record_without_artifact_ignored_witness :
    setuplibraries demoEnv (launcher.launcher "1.21")
        (demoLibraries.take 1 ++ classifiersRecord :: demoLibraries.drop 1) (initial demoDisk)
      = setuplibraries demoEnv (launcher.launcher "1.21")
        (demoLibraries.take 1 ++ demoLibraries.drop 1) (initial demoDisk) ∧
    setuplibraries demoEnv (launcher.launcher "1.21") [classifiersRecord] (initial demoDisk)
      = (.ok (), initial demoDisk) :=
  have h := record_without_artifact_ignored demoEnv (launcher.launcher "1.21") classifiersRecord
    (demoLibraries.take 1) (demoLibraries.drop 1) (initial demoDisk)
    (Or.inr ⟨Json.obj [("classifiers", Json.obj [])], rfl, rfl⟩)
    (Or.inr ⟨"org.lwjgl.lwjgl:lwjgl-platform:2.9.4:natives-windows", rfl⟩)
  ⟨h.2.2.2, h.2.2.1⟩

/-! ## C11: an unreadable manifest -/

/-- A manifest file that cannot be opened makes `buildlaunchcommand` log the
failure and return the empty string, for every username. -/
theorem buildlaunchcommand_unopened (env : Env) (L : launcher) (username : String) (w : World)
    (hopen : readFile env w L.jsonpath = none) :
    buildlaunchcommand env L username w
      = (.ok "", logconsole ("[Error] Failed to read version JSON: " ++ L.jsonpath) w) := by
  unfold buildlaunchcommand
  simp only [hopen]

/-- A manifest file that opens but does not parse makes `buildlaunchcommand`
raise the parser's exception, for every username. -/
theorem buildlaunchcommand_malformed (env : Env) (L : launcher) (username : String) (w : World)
    (bytes : Bytes) (e : String)
    (hopen : readFile env w L.jsonpath = some bytes) (hparse : env.jsonParse bytes = .error e) :
    buildlaunchcommand env L username w = (.error e, w) := by
  unfold buildlaunchcommand
  simp only [hopen, hparse]

set_option maxRecDepth 100000 in
/-- C11 (the code departs from the claim). The manifest file of this installation
opens, but its content is not a well-formed document. `buildlaunchcommand`
does not return the empty string: the exception of `file >> versiondata`
leaves the function (and nothing is logged). -/
theorem buildlaunchcommand_raises_on_malformed_manifest :
    readFile demoEnv (initial malformedDisk) (launcher.launcher "1.21").jsonpath
      = some [123, 34] ∧
    demoEnv.jsonParse [123, 34] = .error "parse_error" ∧
    buildlaunchcommand demoEnv (launcher.launcher "1.21") "alice" (initial malformedDisk)
      = (.error "parse_error", initial malformedDisk) :=
  ⟨by decide, rfl, by rfl⟩

/-! ## C12: the asset index -/

/-- The normal path of `buildlaunchcommand`: manifest read, main class and asset
index evaluated, classpath built, directories created. -/
theorem buildlaunchcommand_commandstring (env : Env) (L : launcher) (username : String)
    (w : World) (bytes : Bytes) (j : Json) (mainclass assetindex classpath : String)
    (hopen : readFile env w L.jsonpath = some bytes)
    (hparse : env.jsonParse bytes = .ok j)
    (hmain : stringfield j "mainClass" "" = .ok mainclass)
    (hne : mainclass ≠ "")
    (hassets : stringfield j "assets" L.versionid = .ok assetindex)
    (hcp : (getclasspath env L w).1 = .ok classpath)
    (hd1 : (create_directories env (env.absolute (pathAppend ".minecraft/versions" L.versionid))
      (getclasspath env L w).2).1 = .ok ())
    (hd2 : (create_directories env
      (pathAppend (env.absolute (pathAppend ".minecraft/versions" L.versionid)) "assets")
      (create_directories env (env.absolute (pathAppend ".minecraft/versions" L.versionid))
        (getclasspath env L w).2).2).1 = .ok ()) :
    (buildlaunchcommand env L username w).1
      = .ok (commandstring L username mainclass assetindex classpath (env.absolute L.nativespath)
          (env.absolute (pathAppend ".minecraft/versions" L.versionid))
          (pathAppend (env.absolute (pathAppend ".minecraft/versions" L.versionid)) "assets")) := by
  unfold buildlaunchcommand
  simp only [hopen, hparse, hmain, hne, if_false, hassets]
  rcases hg : getclasspath env L w with ⟨rc, w1⟩
  rw [hg] at hcp hd1 hd2
  simp only at hcp hd1 hd2
  subst hcp
  simp only
  rcases hc1 : create_directories env
    (env.absolute (pathAppend ".minecraft/versions" L.versionid)) w1 with ⟨r1, w2⟩
  rw [hc1] at hd1 hd2
  simp only at hd1 hd2
  subst hd1
  simp only
  rcases hc2 : create_directories env
    (pathAppend (env.absolute (pathAppend ".minecraft/versions" L.versionid)) "assets") w2
    with ⟨r2, w3⟩
  rw [hc2] at hd2
  simp only at hd2
  subst hd2
  rfl

/-- C12. Let the manifest open and parse with a non-empty `mainClass`, and let the
later steps of `buildlaunchcommand` go through (classpath built, directories
created). When the manifest has a string field `assets`, the asset index
expression has that value and the command carries it after `--assetIndex`.
When the manifest has no `assets` field, the expression has the version id as
value: nothing is raised or logged for the absence, and the command is
produced with the version id after `--assetIndex`. -/
theorem assetindex_fallback (env : Env) (L : launcher) (username : String) (w : World)
    (bytes : Bytes) (j : Json) (mainclass classpath : String)
    (hopen : readFile env w L.jsonpath = some bytes)
    (hparse : env.jsonParse bytes = .ok j)
    (hmain : stringfield j "mainClass" "" = .ok mainclass)
    (hne : mainclass ≠ "")
    (hcp : (getclasspath env L w).1 = .ok classpath)
    (hd1 : (create_directories env (env.absolute (pathAppend ".minecraft/versions" L.versionid))
      (getclasspath env L w).2).1 = .ok ())
    (hd2 : (create_directories env
      (pathAppend (env.absolute (pathAppend ".minecraft/versions" L.versionid)) "assets")
      (create_directories env (env.absolute (pathAppend ".minecraft/versions" L.versionid))
        (getclasspath env L w).2).2).1 = .ok ()) :
    (∀ a, j.get "assets" = .ok (Json.str a) →
      stringfield j "assets" L.versionid = .ok a ∧
      (buildlaunchcommand env L username w).1
        = .ok (commandstring L username mainclass a classpath (env.absolute L.nativespath)
            (env.absolute (pathAppend ".minecraft/versions" L.versionid))
            (pathAppend (env.absolute (pathAppend ".minecraft/versions" L.versionid))
              "assets"))) ∧
    (j.contains "assets" = false →
      stringfield j "assets" L.versionid = .ok L.versionid ∧
      (buildlaunchcommand env L username w).1
        = .ok (commandstring L username mainclass L.versionid classpath
            (env.absolute L.nativespath)
            (env.absolute (pathAppend ".minecraft/versions" L.versionid))
            (pathAppend (env.absolute (pathAppend ".minecraft/versions" L.versionid))
              "assets"))) ∧
    ∀ a, commandstring L username mainclass a classpath (env.absolute L.nativespath)
        (env.absolute (pathAppend ".minecraft/versions" L.versionid))
        (pathAppend (env.absolute (pathAppend ".minecraft/versions" L.versionid)) "assets")
      = "-Xmx2G -Xms1G " ++
          ("-Djava.library.path=\"" ++ env.absolute L.nativespath ++ "\" ") ++
          ("-cp \"" ++ classpath ++ "\" ") ++
          (mainclass ++ " ") ++
          ("--username " ++ username ++ " ") ++
          ("--version " ++ L.versionid ++ " ") ++
          ("--gameDir \"" ++ env.absolute (pathAppend ".minecraft/versions" L.versionid)
            ++ "\" ") ++
          ("--assetsDir \"" ++
            pathAppend (env.absolute (pathAppend ".minecraft/versions" L.versionid)) "assets"
            ++ "\" ") ++
          ("--assetIndex " ++ a ++ " ") ++
          "--uuid 00000000-0000-0000-0000-000000000000 " ++
          "--accessToken 0 " ++
          "--userType mojang" := by
  refine ⟨?_, ?_, fun _ => rfl⟩
  · intro a ha
    have hs : stringfield j "assets" L.versionid = .ok a := by
      unfold stringfield
      rw [ha]
      split
      · rfl
      · rename_i hc
        exfalso
        apply hc
        unfold Json.get at ha
        unfold Json.contains
        split at ha
        · rename_i ms
          cases hl : Json.lookup ms "assets" with
          | none => rw [hl] at ha; simp at ha
          | some v => rfl
        · simp at ha
    exact ⟨hs, buildlaunchcommand_commandstring env L username w bytes j mainclass a classpath
      hopen hparse hmain hne hs hcp hd1 hd2⟩
  · intro hc
    have hs : stringfield j "assets" L.versionid = .ok L.versionid := by
      unfold stringfield
      simp only [hc, Bool.false_eq_true, if_false]
    exact ⟨hs, buildlaunchcommand_commandstring env L username w bytes j mainclass L.versionid
      classpath hopen hparse hmain hne hs hcp hd1 hd2⟩

set_option maxRecDepth 100000 in
/-- C12 on the demo installation: its manifest has no `assets` field and the command
carries the version id `1.21` as asset index; with the manifest of `assetsEnv`
(`assets` is `17`) the command carries `17`. -/
theorem assetindex_fallback_witness :
    (buildlaunchcommand demoEnv (launcher.launcher "1.21") "alice" (initial libsDisk)).1
      = .ok ("-Xmx2G -Xms1G -Djava.library.path=\"C:\\cc\\.minecraft\\natives\\1.21\" " ++
          "-cp \".minecraft\\versions\\1.21\\libraries\\a.jar;" ++
          ".minecraft\\versions\\1.21\\libraries\\b.jar;" ++
          "C:\\cc\\.minecraft\\versions\\1.21\\1.21.jar\" " ++
          "net.minecraft.client.main.Main --username alice --version 1.21 " ++
          "--gameDir \"C:\\cc\\.minecraft/versions\\1.21\" " ++
          "--assetsDir \"C:\\cc\\.minecraft/versions\\1.21\\assets\" --assetIndex 1.21 " ++
          "--uuid 00000000-0000-0000-0000-000000000000 --accessToken 0 --userType mojang") ∧
    (buildlaunchcommand assetsEnv (launcher.launcher "1.21") "alice" (initial libsDisk)).1
      = .ok ("-Xmx2G -Xms1G -Djava.library.path=\"C:\\cc\\.minecraft\\natives\\1.21\" " ++
          "-cp \".minecraft\\versions\\1.21\\libraries\\a.jar;" ++
          ".minecraft\\versions\\1.21\\libraries\\b.jar;" ++
          "C:\\cc\\.minecraft\\versions\\1.21\\1.21.jar\" " ++
          "net.minecraft.client.main.Main --username alice --version 1.21 " ++
          "--gameDir \"C:\\cc\\.minecraft/versions\\1.21\" " ++
          "--assetsDir \"C:\\cc\\.minecraft/versions\\1.21\\assets\" --assetIndex 17 " ++
          "--uuid 00000000-0000-0000-0000-000000000000 --accessToken 0 --userType mojang") :=
  ⟨((assetindex_fallback demoEnv (launcher.launcher "1.21") "alice" (initial libsDisk)
      [123] demoManifest "net.minecraft.client.main.Main"
      (".minecraft\\versions\\1.21\\libraries\\a.jar;" ++
        ".minecraft\\versions\\1.21\\libraries\\b.jar;" ++
        "C:\\cc\\.minecraft\\versions\\1.21\\1.21.jar")
      (by decide) rfl rfl (by decide) (by rfl) (by rfl) (by rfl)).2.1 rfl).2,
   ((assetindex_fallback assetsEnv (launcher.launcher "1.21") "alice" (initial libsDisk)
      [123] (Json.obj
        [("mainClass", Json.str "net.minecraft.client.main.Main"),
         ("assets", Json.str "17"),
         ("libraries", Json.arr [])])
      "net.minecraft.client.main.Main"
      (".minecraft\\versions\\1.21\\libraries\\a.jar;" ++
        ".minecraft\\versions\\1.21\\libraries\\b.jar;" ++
        "C:\\cc\\.minecraft\\versions\\1.21\\1.21.jar")
      (by decide) rfl rfl (by decide) (by rfl) (by rfl) (by rfl)).1 "17" rfl).2⟩

/-! ## C13: the stages of `launchprocess` -/

set_option maxRecDepth 100000 in
/-- C13 as stated fails: with a manifest that has no `libraries` array,
`setuplauncher` ends with its error line, but `launchprocess` does not look
at how `setuplauncher` ended: it goes on, builds the command from the
libraries already on disk and starts the child process. -/
theorem launch_continues_after_setup_error :
    setuplauncher noLibrariesEnv (launcher.launcher "1.21") (initial libsDisk)
      = (.ok (), logconsole "[Error] Version JSON missing 'libraries' array."
          (initial libsDisk)) ∧
    (launchprocess noLibrariesEnv (launcher.launcher "1.21") "alice"
      (initial libsDisk)).2.children.map (fun c => c.alive) = [true] ∧
    (launchprocess noLibrariesEnv (launcher.launcher "1.21") "alice" (initial libsDisk)).2.log
      = ["[Error] Version JSON missing 'libraries' array.",
         "[Launch] Starting Java process...",
         "[Launch] Minecraft launch request sent..."] :=
  ⟨by rfl, by decide, by decide⟩

/-- C13 (amended). The checked stages of `launchprocess` are the result of
`buildlaunchcommand`, the Java executable and process creation:
* a manifest that cannot be opened makes `setuplauncher` and then
  `buildlaunchcommand` log their error, and the launch ends with
  "[Error] No launch arguments generated.";
* once `setuplauncher` has returned and `buildlaunchcommand` has returned
  `args`: an empty `args`, a missing `.minecraft\java\bin\java.exe`, or a
  failing `CreateProcessA` each end the launch with their error line;
* in each of these cases, and when a pipe cannot be created, no child process
  is created.
How `setuplauncher` ended is not looked at. -/
theorem launch_aborts_on_failed_stage (env : Env) (L : launcher) (username : String)
    (w : World) :
    (readFile env w L.jsonpath = none →
      launchprocess env L username w
        = (.ok (), logconsole "[Error] No launch arguments generated."
            (logconsole ("[Error] Failed to read version JSON: " ++ L.jsonpath)
              (logconsole ("[Error] Failed to open JSON: " ++ L.jsonpath) w))) ∧
      (launchprocess env L username w).2.children = w.children) ∧
    (∀ w1 args w2, setuplauncher env L w = (.ok (), w1) →
      buildlaunchcommand env L username w1 = (.ok args, w2) →
      (args = "" →
        launchprocess env L username w
          = (.ok (), logconsole "[Error] No launch arguments generated." w2)) ∧
      (args ≠ "" → fsExists env w2 javapath = false →
        launchprocess env L username w
          = (.ok (), logconsole ("[Error] Java not found: " ++ javapath) w2)) ∧
      (args ≠ "" → fsExists env w2 javapath = true →
        env.stdoutPipe = true → env.stderrPipe = true →
        env.createProcess ("\"" ++ javapath ++ "\" " ++ args) = false →
        launchprocess env L username w
          = (.ok (), logconsole "[Error] Failed to start java process."
              (logconsole "[Launch] Starting Java process..." w2))) ∧
      ((args = "" ∨ fsExists env w2 javapath = false ∨ env.stdoutPipe = false ∨
          env.stderrPipe = false ∨
          env.createProcess ("\"" ++ javapath ++ "\" " ++ args) = false) →
        (launchprocess env L username w).1 = .ok () ∧
        (launchprocess env L username w).2.children = w.children)) := by
  constructor
  · intro hopen
    have hs : setuplauncher env L w
        = (.ok (), logconsole ("[Error] Failed to open JSON: " ++ L.jsonpath) w) := by
      unfold setuplauncher
      simp only [hopen]
    have hopen1 : readFile env (logconsole ("[Error] Failed to open JSON: " ++ L.jsonpath) w)
        L.jsonpath = none := hopen
    have hb := buildlaunchcommand_unopened env L username _ hopen1
    have hl : launchprocess env L username w
        = (.ok (), logconsole "[Error] No launch arguments generated."
            (logconsole ("[Error] Failed to read version JSON: " ++ L.jsonpath)
              (logconsole ("[Error] Failed to open JSON: " ++ L.jsonpath) w))) := by
      unfold launchprocess
      simp only [hs, hb, if_true]
    refine ⟨hl, ?_⟩
    rw [hl]
    rfl
  · intro w1 args w2 hs hb
    have hch : w2.children = w.children :=
      ((sameProcs_of_eq hb (sameProcs_buildlaunchcommand env L username w1)).1).trans
        (sameProcs_of_eq hs (sameProcs_setuplauncher env L w)).1
    refine ⟨?_, ?_, ?_, ?_⟩
    · intro hargs
      unfold launchprocess
      simp only [hs, hb, hargs, if_true]
    · intro hargs hjava
      unfold launchprocess
      simp only [hs, hb, hargs, if_false, hjava, Bool.not_false, if_true]
    · intro hargs hjava hp1 hp2 hcp
      unfold launchprocess
      simp only [hs, hb, hargs, if_false, hjava, Bool.not_true, Bool.false_eq_true, hp1, hp2,
        hcp, Bool.not_false, if_true]
    · intro hfail
      unfold launchprocess
      simp only [hs, hb]
      by_cases hargs : args = ""
      · simp only [hargs, if_true]
        exact ⟨trivial, hch⟩
      · by_cases hjava : fsExists env w2 javapath = true
        · by_cases hp1 : env.stdoutPipe = true
          · by_cases hp2 : env.stderrPipe = true
            · by_cases hcp : env.createProcess ("\"" ++ javapath ++ "\" " ++ args) = true
              · exfalso
                rcases hfail with h | h | h | h | h
                · exact hargs h
                · rw [hjava] at h; cases h
                · rw [hp1] at h; cases h
                · rw [hp2] at h; cases h
                · rw [hcp] at h; cases h
              · simp only [hargs, if_false, hjava, Bool.not_true, Bool.false_eq_true, hp1, hp2,
                  hcp, Bool.not_false, if_true]
                exact ⟨trivial, hch⟩
            · simp only [hargs, if_false, hjava, Bool.not_true, Bool.false_eq_true, hp1, hp2,
                Bool.not_false, if_true]
              exact ⟨trivial, hch⟩
          · simp only [hargs, if_false, hjava, Bool.not_true, Bool.false_eq_true, hp1,
              Bool.not_false, if_true]
            exact ⟨trivial, hch⟩
        · simp only [hargs, if_false, hjava, Bool.not_false, if_true]
          exact ⟨trivial, hch⟩

set_option maxRecDepth 100000 in
/-- C13 (amended) on two installations: on an empty disk the manifest cannot be opened
and the launch ends with the three error lines; on a disk with manifest and
library but without the Java executable the launch ends with
"[Error] Java not found: ..." and without a child process. -/
theorem launch_aborts_on_failed_stage_witness :
    launchprocess demoEnv (launcher.launcher "1.21") "alice" (initial [])
      = (.ok (), logconsole "[Error] No launch arguments generated."
          (logconsole
            ("[Error] Failed to read version JSON: " ++ (launcher.launcher "1.21").jsonpath)
            (logconsole
              ("[Error] Failed to open JSON: " ++ (launcher.launcher "1.21").jsonpath)
              (initial [])))) ∧
    (launchprocess demoEnv (launcher.launcher "1.21") "alice"
        (initial noMainJarDisk)).2.log.getLast?
      = some "[Error] Java not found: .minecraft\\java\\bin\\java.exe" ∧
    (launchprocess demoEnv (launcher.launcher "1.21") "alice" (initial noMainJarDisk)).2.children
      = [] :=
  have h1 := ((launch_aborts_on_failed_stage demoEnv (launcher.launcher "1.21") "alice"
    (initial [])).1 (by decide)).1
  have h2 := (launch_aborts_on_failed_stage demoEnv (launcher.launcher "1.21") "alice"
    (initial noMainJarDisk)).2
    (setuplauncher demoEnv (launcher.launcher "1.21") (initial noMainJarDisk)).2
    ("-Xmx2G -Xms1G -Djava.library.path=\"C:\\cc\\.minecraft\\natives\\1.21\" " ++
      "-cp \".minecraft\\versions\\1.21\\libraries\\a.jar;" ++
      ".minecraft\\versions\\1.21\\libraries\\com\\mojang\\brigadier.jar;" ++
      ".minecraft\\versions\\1.21\\libraries\\org\\lwjgl\\lwjgl-natives.jar\" " ++
      "net.minecraft.client.main.Main --username alice --version 1.21 " ++
      "--gameDir \"C:\\cc\\.minecraft/versions\\1.21\" " ++
      "--assetsDir \"C:\\cc\\.minecraft/versions\\1.21\\assets\" --assetIndex 1.21 " ++
      "--uuid 00000000-0000-0000-0000-000000000000 --accessToken 0 --userType mojang")
    (buildlaunchcommand demoEnv (launcher.launcher "1.21") "alice"
      (setuplauncher demoEnv (launcher.launcher "1.21") (initial noMainJarDisk)).2).2
    (by rfl) (by rfl)
  ⟨h1, (congrArg (fun r => r.2.log.getLast?) (h2.2.1 (by decide) (by decide))).trans (by rfl),
    (h2.2.2.2 (Or.inr (Or.inl (by decide)))).2⟩

/-! ## C14: where a record is downloaded to and where it is looked up -/

theorem isSlash_preferChar (c : Char) : isSlash (preferChar c) = isSlash c := by
  unfold preferChar
  split
  · rename_i h
    have hc : c = '/' := by simpa using h
    subst hc
    decide
  · rfl

theorem isAlpha_preferChar (c : Char) : (preferChar c).isAlpha = c.isAlpha := by
  unfold preferChar
  split
  · rename_i h
    have hc : c = '/' := by simpa using h
    subst hc
    decide
  · rfl

theorem colon_preferChar (c : Char) : (preferChar c == ':') = (c == ':') := by
  unfold preferChar
  split
  · rename_i h
    have hc : c = '/' := by simpa using h
    subst hc
    decide
  · rfl

theorem preferChar_of_not_slash (c : Char) (h : isSlash c = false) : preferChar c = c := by
  unfold preferChar
  split
  · rename_i hs
    have hc : c = '/' := by simpa using hs
    subst hc
    exact absurd h (by decide)
  · rfl

theorem make_preferred_data (p : String) : (make_preferred p).data = p.data.map preferChar :=
  rfl

theorem plainRelativeL_map (b : List Char) :
    plainRelativeL (b.map preferChar) = plainRelativeL b := by
  match b with
  | [] => rfl
  | [c] => simp only [List.map, plainRelativeL, isSlash_preferChar]
  | c0 :: c1 :: rest =>
    simp only [List.map, plainRelativeL, isSlash_preferChar, isAlpha_preferChar,
      colon_preferChar]

/-- A plain relative path has no root name, is not absolute and does not start
with a separator. -/
theorem plainRelativeL_facts (b : List Char) (h : plainRelativeL b = true) :
    isAbsoluteL b = false ∧ rootNameLen b = 0 ∧
      ∀ c rest, b = c :: rest → isSlash c = false := by
  match b, h with
  | [], _ => exact ⟨rfl, rfl, fun _ _ hb => by cases hb⟩
  | [c], h =>
    simp only [plainRelativeL, Bool.not_eq_true'] at h
    refine ⟨rfl, rfl, ?_⟩
    intro c1 rest hb
    simp only [List.cons.injEq] at hb
    rw [← hb.1]
    exact h
  | c0 :: c1 :: rest, h =>
    simp only [plainRelativeL, Bool.and_eq_true, Bool.not_eq_true'] at h
    obtain ⟨h0, h1⟩ := h
    have hr : rootNameLen (c0 :: c1 :: rest) = 0 := by
      unfold rootNameLen
      simp only [h1, Bool.false_eq_true, if_false, h0, Bool.not_false, if_true]
    refine ⟨?_, hr, ?_⟩
    · unfold isAbsoluteL
      simp only [h1, Bool.false_eq_true, if_false, hr]
      rfl
    · intro c2 rest2 hb
      simp only [List.cons.injEq] at hb
      rw [← hb.1]
      exact h0

/-- Appending a plain relative path to a path that ends in a name of at least
three characters: the separator and the relative path are added. -/
theorem appendL_plainRelative (a b : List Char) (c : Char) (t : List Char)
    (ha : a = t ++ [c]) (hc : isSlash c = false) (hlen : 3 ≤ a.length)
    (hb : plainRelativeL b = true) : appendL a b = a ++ '\\' :: b := by
  obtain ⟨h1, h2, h3⟩ := plainRelativeL_facts b hb
  have hlast : a.getLast? = some c := by
    rw [ha]
    simp
  have hbase : (if rootNameLen a == a.length then (if 3 ≤ rootNameLen a then a ++ ['\\'] else a)
      else (match a.getLast? with
        | some c => if isSlash c then a else a ++ ['\\']
        | none => a)) = a ++ ['\\'] := by
    by_cases hr : rootNameLen a = a.length
    · simp only [hr, beq_self_eq_true, if_true, hlen]
    · have hbeq : (rootNameLen a == a.length) = false := by simpa using hr
      simp only [hbeq, Bool.false_eq_true, if_false, hlast, hc]
  unfold appendL
  simp only [h1, Bool.false_eq_true, if_false, h2, bne_self_eq_false, Bool.false_and,
    List.drop_zero]
  cases b with
  | nil =>
    simp only [Bool.false_eq_true, if_false]
    rw [hbase]
    simp
  | cons c1 rest =>
    simp only [h3 c1 rest rfl, Bool.false_eq_true, if_false]
    rw [hbase]
    simp

theorem appendL_relative_suffix (a b : List Char) (hb : plainRelativeL b = true) :
    ∃ t, appendL a b = t ++ b := by
  obtain ⟨h1, h2, h3⟩ := plainRelativeL_facts b hb
  unfold appendL
  simp only [h1, Bool.false_eq_true, if_false, h2, bne_self_eq_false, Bool.false_and,
    List.drop_zero]
  exact ⟨_, rfl⟩

theorem preferChar_idem (c : Char) : preferChar (preferChar c) = preferChar c := by
  by_cases h : isSlash c = true
  · have hp : isSlash (preferChar c) = true := by rw [isSlash_preferChar]; exact h
    unfold preferChar
    by_cases hc : (c == '/') = true
    · simp only [hc, if_true]
      decide
    · simp only [hc, Bool.false_eq_true, if_false]
  · have h0 : isSlash c = false := by simpa using h
    rw [preferChar_of_not_slash c h0, preferChar_of_not_slash c h0]

/-- The libraries directory of a launcher: a preferred-form path that ends in
the name `libraries`. -/
theorem libspath_shape (versionid : String) :
    ∃ t, (launcher.launcher versionid).libspath.data = t ++ ['s'] ∧
      3 ≤ (launcher.launcher versionid).libspath.data.length ∧
      (launcher.launcher versionid).libspath.data.map preferChar
        = (launcher.launcher versionid).libspath.data := by
  obtain ⟨t, ht⟩ := appendL_relative_suffix
    (pathAppend (pathAppend ".minecraft" "versions") versionid).data "libraries".data
    (by decide)
  have hd : (launcher.launcher versionid).libspath.data
      = (t ++ "libraries".data).map preferChar := by
    show (make_preferred (pathAppend _ "libraries")).data = _
    rw [make_preferred_data]
    show (appendL _ "libraries".data).map preferChar = _
    rw [ht]
  have hl : "libraries".data.map preferChar = "librarie".data ++ ['s'] := by decide
  refine ⟨t.map preferChar ++ "librarie".data, ?_, ?_, ?_⟩
  · rw [hd, List.map_append, hl, List.append_assoc]
  · rw [hd, List.length_map, List.length_append]
    have : "libraries".data.length = 9 := by decide
    omega
  · rw [hd, List.map_map]
    apply List.map_congr_left
    intro c _
    exact preferChar_idem c

/-- For a plain relative path, the download target `libspath / make_preferred(path)`
is the libraries directory, a separator and the path in preferred form, and it
is the preferred form of `libspath / path`. -/
theorem target_shape (versionid apath : String) (hrel : plainRelative apath = true) :
    pathAppend (launcher.launcher versionid).libspath (make_preferred apath)
      = (launcher.launcher versionid).libspath ++ "\\" ++ make_preferred apath ∧
    make_preferred (pathAppend (launcher.launcher versionid).libspath apath)
      = (launcher.launcher versionid).libspath ++ "\\" ++ make_preferred apath := by
  obtain ⟨t, hs, hlen, hpref⟩ := libspath_shape versionid
  have hrel2 : plainRelativeL (apath.data.map preferChar) = true := by
    rw [plainRelativeL_map]
    exact hrel
  have h1 := appendL_plainRelative _ _ 's' t hs (by decide) hlen hrel2
  have h2 := appendL_plainRelative _ _ 's' t hs (by decide) hlen hrel
  constructor
  · apply String.ext
    show appendL _ (make_preferred apath).data = _
    rw [make_preferred_data, h1]
    simp only [String.data_append, make_preferred_data]
    simp
  · apply String.ext
    rw [make_preferred_data]
    show (appendL _ apath.data).map preferChar = _
    rw [h2, List.map_append, hpref]
    simp only [String.data_append, make_preferred_data, List.map_cons]
    have : preferChar '\\' = '\\' := by decide
    rw [this]
    simp

theorem artifactOf_some {lib a : Json} (h : artifactOf lib = some a) :
    lib.contains "downloads" = true ∧
      ∃ d, lib.get "downloads" = .ok d ∧ d.contains "artifact" = true ∧
        d.get "artifact" = .ok a := by
  unfold artifactOf at h
  split at h
  · rename_i hc
    refine ⟨hc, ?_⟩
    split at h
    · rename_i d hd
      split at h
      · rename_i hc2
        split at h
        · rename_i a1 ha1
          simp only [Option.some.injEq] at h
          subst h
          exact ⟨d, hd, hc2, ha1⟩
        · simp at h
      · simp at h
    · simp at h
  · simp at h

theorem Json.contains_of_get {j v : Json} {key : String} (h : j.get key = .ok v) :
    j.contains key = true := by
  unfold Json.get at h
  unfold Json.contains
  split at h
  · rename_i ms
    cases hl : Json.lookup ms key with
    | none => rw [hl] at h; simp at h
    | some v1 => rfl
  · simp at h

set_option maxRecDepth 100000 in
/-- C14 as stated fails: a record with a non-empty url and the path
`C:\Users\Public\tool.jar`. The path has a root, so `libspath / path` is the
path itself: `downloadfiles` is called with it and writes the file there, a
location that is not below the libraries directory. -/
theorem absolute_path_leaves_libraries_directory :
    dltarget (launcher.launcher "1.21") absolutePathRecord
      = some ("https://example.org/tool.jar", "C:\\Users\\Public\\tool.jar") ∧
    (downloadstep demoEnv (launcher.launcher "1.21") absolutePathRecord
        (initial demoDisk)).2.calls
      = [⟨"https://example.org/tool.jar", "C:\\Users\\Public\\tool.jar", false⟩] ∧
    fsLookup (downloadstep demoEnv (launcher.launcher "1.21") absolutePathRecord
        (initial demoDisk)).2.fs ["C:", "Users", "Public", "tool.jar"]
      = some (Node.file [80, 75]) ∧
    below (demoEnv.resolve (launcher.launcher "1.21").libspath)
      (demoEnv.resolve "C:\\Users\\Public\\tool.jar") = false :=
  ⟨by decide, by decide, by decide, by decide⟩

/-- C14 (amended). Let a record have an artifact with a non-empty url and a non-empty
path that is a plain relative path (no drive or server name, no leading
separator), and let the system resolve the absolute and the preferred form
of `libspath / path` to the location of `libspath / path`. Then, for every
version id:
* the download pass calls `downloadfiles` with the url and the target
  `libspath \ path` in preferred form, the path mirrored under
  `.minecraft\versions\<versionId>\libraries`;
* this target designates the location that the extraction pass looks up;
* when the record's name contains `natives-windows`, the extraction pass
  runs `extractnatives` on that location exactly when the target exists. -/
theorem download_target_is_extraction_lookup (env : Env) (versionid : String)
    (lib artifact : Json) (url apath : String)
    (hart : artifactOf lib = some artifact)
    (hurl : artifact.value "url" "" = .ok url)
    (hpath : artifact.value "path" "" = .ok apath)
    (hu : url ≠ "") (hp : apath ≠ "")
    (hrel : plainRelative apath = true)
    (habs : env.resolve (make_preferred
        (env.absolute (pathAppend (launcher.launcher versionid).libspath apath)))
      = env.resolve (pathAppend (launcher.launcher versionid).libspath apath))
    (hpref : env.resolve (make_preferred
        (pathAppend (launcher.launcher versionid).libspath apath))
      = env.resolve (pathAppend (launcher.launcher versionid).libspath apath)) :
    dltarget (launcher.launcher versionid) lib
      = some (url, (launcher.launcher versionid).libspath ++ "\\" ++ make_preferred apath) ∧
    (∀ w, (downloadstep env (launcher.launcher versionid) lib w).2
      = match downloadfiles env url
          ((launcher.launcher versionid).libspath ++ "\\" ++ make_preferred apath) w with
        | (.error e, w1) => logconsole ("[Error] Downloading failed: " ++ e) w1
        | (.ok _, w1) => w1) ∧
    env.resolve ((launcher.launcher versionid).libspath ++ "\\" ++ make_preferred apath)
      = env.resolve (make_preferred
          (env.absolute (pathAppend (launcher.launcher versionid).libspath apath))) ∧
    (∀ name w, lib.get "name" = .ok (Json.str name) →
      hasSubstr "natives-windows".data name.data = true →
      extractstep env (launcher.launcher versionid) lib w
        = if fsExists env w
              ((launcher.launcher versionid).libspath ++ "\\" ++ make_preferred apath) then
            extractnatives env (launcher.launcher versionid)
              (make_preferred
                (env.absolute (pathAppend (launcher.launcher versionid).libspath apath))) w
          else (.ok (), w)) := by
  obtain ⟨ht1, ht2⟩ := target_shape versionid apath hrel
  obtain ⟨hc, d, hd, hc2, ha⟩ := artifactOf_some hart
  have hempty : ¬ (url = "" ∨ apath = "") := fun h => h.elim hu hp
  have hres : env.resolve
      ((launcher.launcher versionid).libspath ++ "\\" ++ make_preferred apath)
      = env.resolve (make_preferred
          (env.absolute (pathAppend (launcher.launcher versionid).libspath apath))) := by
    rw [habs, ← hpref, ht2]
  refine ⟨?_, ?_, hres, ?_⟩
  · unfold dltarget
    simp only [hart, hurl, hpath, hempty, if_false, ht1]
  · intro w
    unfold downloadstep
    simp only [hc, Bool.not_true, Bool.false_eq_true, if_false, hd, hc2, ha, hurl, hpath,
      hempty, ht1]
    split <;> rfl
  · intro name w hname hsub
    have hcn := Json.contains_of_get hname
    have hex : fsExists env w (make_preferred
          (env.absolute (pathAppend (launcher.launcher versionid).libspath apath)))
        = fsExists env w
          ((launcher.launcher versionid).libspath ++ "\\" ++ make_preferred apath) := by
      unfold fsExists
      rw [hres]
    unfold extractstep
    simp only [hcn, Bool.not_true, Bool.false_eq_true, if_false, hname, Json.getString, hsub,
      if_true, hc, hd, hc2, ha, hpath, hp, hex]

set_option maxRecDepth 100000 in
/-- C14 (amended) on the native archive record of the demo installation: the download
target is the record's path below the libraries directory, and it designates
the location of the absolute path that the extraction pass looks up. -/
theorem download_target_is_extraction_lookup_witness :
    dltarget (launcher.launcher "1.21") demoNativeRecord
      = some ("https://libraries.minecraft.net/lwjgl-natives.jar",
          ".minecraft\\versions\\1.21\\libraries\\org\\lwjgl\\lwjgl-natives.jar") ∧
    demoEnv.resolve ".minecraft\\versions\\1.21\\libraries\\org\\lwjgl\\lwjgl-natives.jar"
      = demoEnv.resolve
          "C:\\cc\\.minecraft\\versions\\1.21\\libraries\\org\\lwjgl\\lwjgl-natives.jar" :=
  have h := download_target_is_extraction_lookup demoEnv "1.21" demoNativeRecord
    (Json.obj
      [("url", Json.str "https://libraries.minecraft.net/lwjgl-natives.jar"),
       ("path", Json.str "org/lwjgl/lwjgl-natives.jar")])
    "https://libraries.minecraft.net/lwjgl-natives.jar" "org/lwjgl/lwjgl-natives.jar"
    rfl rfl rfl (by decide) (by decide) (by decide) (by decide) (by decide)
  ⟨h.1, h.2.2.1⟩

/-! ## C15: a failed transfer and the next call -/

/-- After a call of `downloadfiles` whose directory creation succeeded, the
parent directories of the destination are in place. -/
theorem downloadfiles_dirs_after (env : Env) (url dest : String) (w : World)
    (hdir : (create_directories env (parent_path dest) w).1 = .ok ()) :
    ∀ k ∈ prefixes (env.resolve (parent_path dest)),
      fsLookup (downloadfiles env url dest w).2.fs k = some Node.dir := by
  obtain ⟨hm, hmk, hcd⟩ := create_directories_ok hdir
  have hd0 := mkdirs_dirs _ _ hmk
  intro k hk
  rw [downloadfiles_fs]
  have hnoop : create_directories env (parent_path dest)
      { w with fs := (mkdirs (prefixes (env.resolve (parent_path dest))) w.fs).2 }
      = (.ok (), { w with fs := (mkdirs (prefixes (env.resolve (parent_path dest))) w.fs).2 }) :=
    create_directories_noop hm hd0
  have hb := downloadfilesBody_dirs env url dest
    { w with fs := (mkdirs (prefixes (env.resolve (parent_path dest))) w.fs).2 } k (hd0 k hk)
  unfold downloadfilesBody at hb ⊢
  rw [hnoop] at hb
  rw [hcd]
  exact hb

/-- A call of `downloadfiles` that finds a regular file at the destination,
whatever its content, logs the skip line, runs no transfer, returns normally
and leaves the file as it is. -/
theorem downloadfiles_skips_existing (env : Env) (url dest : String) (w : World)
    (content : Bytes)
    (hfile : fsLookup w.fs (env.resolve dest) = some (Node.file content))
    (hdir : (create_directories env (parent_path dest) w).1 = .ok ()) :
    (downloadfiles env url dest w).1 = .ok () ∧
    (downloadfiles env url dest w).2.transfers = w.transfers ∧
    (downloadfiles env url dest w).2.log = w.log ++ ["[Skip] " ++ dest] ∧
    fsLookup (downloadfiles env url dest w).2.fs (env.resolve dest)
      = some (Node.file content) := by
  have hfr := create_directories_frame env (parent_path dest) w
  have hl := fsLookup_create_directories env (parent_path dest) w _ _ hfile
  rw [downloadfiles_fst, downloadfiles_transfers, downloadfiles_log, downloadfiles_fs]
  unfold downloadfilesBody
  rcases hcd : create_directories env (parent_path dest) w with ⟨_ | _, w0⟩
  · rw [hcd] at hdir
    simp at hdir
  · rw [hcd] at hfr hl
    simp only at hfr hl ⊢
    have hex : fsExists env w0 dest = true := by
      unfold fsExists
      rw [hl]
      rfl
    simp only [hex, if_true]
    refine ⟨trivial, hfr.1, ?_, hl⟩
    show w0.log ++ ["[Skip] " ++ dest] = w.log ++ ["[Skip] " ++ dest]
    rw [hfr.2.1]

/-- C15. Let the destination be absent, the output file open and curl initialise, and
let the transfer fail with error text `msg` after delivering the bytes
`body` (possibly none). Then `downloadfiles` raises
"CURL download failed: msg" and the destination stays on disk holding
exactly `body`. The next call with the same destination, for any url, logs
"[Skip] <destination>", runs no transfer, changes nothing on disk and returns
normally; and so does every later call that finds a regular file at the
destination, whatever its content. -/
theorem failed_transfer_then_skip (env : Env) (url dest : String) (w : World) (msg : String)
    (hdir : (create_directories env (parent_path dest) w).1 = .ok ())
    (habsent : fsExists env (create_directories env (parent_path dest) w).2 dest = false)
    (hwd : env.writeDenied dest = false) (hci : env.curlInitFails url = false)
    (herr : (env.curlPerform url).error = some msg) :
    (downloadfiles env url dest w).1 = .error ("CURL download failed: " ++ msg) ∧
    fsLookup (downloadfiles env url dest w).2.fs (env.resolve dest)
      = some (Node.file (env.curlPerform url).body) ∧
    (∀ url2,
      (downloadfiles env url2 dest (downloadfiles env url dest w).2).1 = .ok () ∧
      (downloadfiles env url2 dest (downloadfiles env url dest w).2).2.transfers
        = (downloadfiles env url dest w).2.transfers ∧
      (downloadfiles env url2 dest (downloadfiles env url dest w).2).2.fs
        = (downloadfiles env url dest w).2.fs ∧
      (downloadfiles env url2 dest (downloadfiles env url dest w).2).2.log
        = (downloadfiles env url dest w).2.log ++ ["[Skip] " ++ dest]) ∧
    (∀ url2 w2 content,
      fsLookup w2.fs (env.resolve dest) = some (Node.file content) →
      (create_directories env (parent_path dest) w2).1 = .ok () →
      (downloadfiles env url2 dest w2).1 = .ok () ∧
      (downloadfiles env url2 dest w2).2.transfers = w2.transfers ∧
      (downloadfiles env url2 dest w2).2.log = w2.log ++ ["[Skip] " ++ dest] ∧
      fsLookup (downloadfiles env url2 dest w2).2.fs (env.resolve dest)
        = some (Node.file content)) := by
  -- the first call
  have hfirst : (downloadfilesBody env url dest w).1
        = .error ("CURL download failed: " ++ msg) ∧
      fsLookup (downloadfilesBody env url dest w).2.fs (env.resolve dest)
        = some (Node.file (env.curlPerform url).body) := by
    unfold downloadfilesBody
    rcases hcd : create_directories env (parent_path dest) w with ⟨_ | _, w0⟩
    · rw [hcd] at hdir
      simp at hdir
    · rw [hcd] at habsent
      simp only at habsent ⊢
      have hl : fsLookup w0.fs (env.resolve dest) = none := by
        unfold fsExists at habsent
        cases hq : fsLookup w0.fs (env.resolve dest) with
        | none => rfl
        | some n => rw [hq] at habsent; simp at habsent
      have hop : openWrite env dest (logconsole ("[Download] " ++ url) w0)
          = some { logconsole ("[Download] " ++ url) w0 with
              fs := fsPut w0.fs (env.resolve dest) (Node.file []) } := by
        unfold openWrite
        simp only [hwd, Bool.false_eq_true, if_false]
        have : fsLookup (logconsole ("[Download] " ++ url) w0).fs (env.resolve dest) = none := hl
        rw [this]
        rfl
      simp only [habsent, Bool.false_eq_true, if_false, hop, hci, herr]
      refine ⟨trivial, ?_⟩
      unfold writeBytes
      simp only [fsLookup_fsPut, if_true, List.nil_append]
  have hp : fsExists env (downloadfiles env url dest w).2 dest = true := by
    unfold fsExists
    rw [downloadfiles_fs, hfirst.2]
    rfl
  obtain ⟨hm, _, _⟩ := create_directories_ok hdir
  have hd1 := downloadfiles_dirs_after env url dest w hdir
  refine ⟨?_, ?_, ?_, ?_⟩
  · rw [downloadfiles_fst]
    exact hfirst.1
  · rw [downloadfiles_fs]
    exact hfirst.2
  · intro url2
    have hskip := @downloadfilesBody_skip env url2 dest _ hm hd1 hp
    refine ⟨?_, ?_, ?_, ?_⟩
    · rw [downloadfiles_fst, hskip]
    · rw [downloadfiles_transfers, hskip]
      rfl
    · rw [downloadfiles_fs, hskip]
      rfl
    · rw [downloadfiles_log, hskip]
      rfl
  · intro url2 w2 content hfile hdir2
    exact downloadfiles_skips_existing env url2 dest w2 content hfile hdir2

set_option maxRecDepth 100000 in
/-- C15 on the demo installation when the transfer breaks off after one byte: the
call raises, the one byte stays on disk as the destination file, and the
next call skips it and returns normally. -/
theorem failed_transfer_then_skip_witness :
    (downloadfiles truncatingEnv "https://libraries.minecraft.net/brigadier.jar"
      ".minecraft\\versions\\1.21\\libraries\\com\\mojang\\brigadier.jar"
      (initial demoDisk)).1 = .error "CURL download failed: Transferred a partial file" ∧
    fsLookup (downloadfiles truncatingEnv "https://libraries.minecraft.net/brigadier.jar"
      ".minecraft\\versions\\1.21\\libraries\\com\\mojang\\brigadier.jar"
      (initial demoDisk)).2.fs
      ["C:", "cc", ".minecraft", "versions", "1.21", "libraries", "com", "mojang",
        "brigadier.jar"] = some (Node.file [80]) ∧
    (downloadfiles truncatingEnv "https://libraries.minecraft.net/brigadier.jar"
      ".minecraft\\versions\\1.21\\libraries\\com\\mojang\\brigadier.jar"
      (downloadfiles truncatingEnv "https://libraries.minecraft.net/brigadier.jar"
        ".minecraft\\versions\\1.21\\libraries\\com\\mojang\\brigadier.jar"
        (initial demoDisk)).2).1 = .ok () ∧
    (downloadfiles truncatingEnv "https://libraries.minecraft.net/brigadier.jar"
      ".minecraft\\versions\\1.21\\libraries\\com\\mojang\\brigadier.jar"
      (downloadfiles truncatingEnv "https://libraries.minecraft.net/brigadier.jar"
        ".minecraft\\versions\\1.21\\libraries\\com\\mojang\\brigadier.jar"
        (initial demoDisk)).2).2.transfers
      = (downloadfiles truncatingEnv "https://libraries.minecraft.net/brigadier.jar"
        ".minecraft\\versions\\1.21\\libraries\\com\\mojang\\brigadier.jar"
        (initial demoDisk)).2.transfers :=
  have h := failed_transfer_then_skip truncatingEnv
    "https://libraries.minecraft.net/brigadier.jar"
    ".minecraft\\versions\\1.21\\libraries\\com\\mojang\\brigadier.jar"
    (initial demoDisk) "Transferred a partial file" rfl (by decide) (by decide) (by decide) rfl
  ⟨h.1, h.2.1, (h.2.2.1 "https://libraries.minecraft.net/brigadier.jar").1,
    (h.2.2.1 "https://libraries.minecraft.net/brigadier.jar").2.1⟩

end CCLauncher
